import Mathlib

/-!
Shallow embedding of the FIFO lot-accounting engine of the olstral-erp
repository (src/models.py, src/batch_utils.py, src/production_utils.py).

Database rows become Lean structures, the SQLAlchemy session becomes an
explicit `EngineState` record, and every engine operation is a function
from a state to either a new state (commit) or an error paired with the
state the session held when the exception was raised (the caller then
rolls back, which restores the pre-call state).  `datetime.utcnow()` is
threaded through operations as an explicit `now : Nat` timestamp.
Python floats (cost columns) are modelled as rationals; `db.Integer`
quantity columns as `Int`.
-/

namespace Olstral

/-- Row of the batches table (models.py, class Batch). -/
structure Batch where
  id : Nat
  batch_number : String
  item_id : Nat
  receipt_id : Option Nat
  location_id : Nat
  bin_location : Option String
  quantity_original : Int
  quantity_available : Int
  received_date : Nat
  expiry_date : Option Nat
  supplier_batch_number : Option String
  po_id : Option Nat
  internal_order_number : Option String
  external_process_id : Option Nat
  cost_per_unit : ℚ
  ownership_type : String
  status : String
  notes : Option String
  created_by : Option Nat
deriving Repr, DecidableEq

/-- Row of the batch_transactions audit table (models.py, class BatchTransaction). -/
structure BatchTransaction where
  batch_id : Nat
  transaction_type : String
  quantity : Int
  reference_type : Option String
  reference_id : Option Nat
  from_location_id : Option Nat
  to_location_id : Option Nat
  notes : Option String
  created_by : Option Nat
deriving Repr, DecidableEq

/-- Row of the denormalized per-(item, location) quantity cache
(models.py, class InventoryLocation). -/
structure InventoryLocation where
  item_id : Nat
  location_id : Nat
  quantity : Int
deriving Repr, DecidableEq

/-- Manual component entry, the parsed form of the JSON text stored in
ProductionOrder.manual_components. -/
structure ManualComponent where
  item_id : Nat
  quantity : ℚ
deriving Repr, DecidableEq

/-- Row of the production_orders table (models.py, class ProductionOrder). -/
structure ProductionOrder where
  id : Nat
  order_number : String
  finished_item_id : Nat
  bom_id : Option Nat
  location_id : Nat
  manual_components : Option (List ManualComponent)
  quantity_ordered : Int
  quantity_produced : Int
  quantity_scrapped : Int
  status : String
  actual_start_date : Option Nat
  actual_completion_date : Option Nat
  material_cost : ℚ
  labor_cost : ℚ
  overhead_cost : ℚ
  total_cost : ℚ
deriving Repr, DecidableEq

/-- Row of the production_consumption table (models.py, class ProductionConsumption). -/
structure ProductionConsumption where
  production_order_id : Nat
  component_item_id : Nat
  batch_id : Nat
  quantity_consumed : Int
  cost_per_unit : ℚ
  total_cost : ℚ
  consumed_date : Nat
  consumed_by : Nat
  notes : String
deriving Repr, DecidableEq

/-- BOM component line (models.py, class BOMComponent). -/
structure BOMComponent where
  component_item_id : Nat
  quantity : ℚ
deriving Repr, DecidableEq

/-- Bill of materials header with its component lines
(models.py, class BillOfMaterials). -/
structure BillOfMaterials where
  id : Nat
  status : String
  components : List BOMComponent
deriving Repr, DecidableEq

/-- Item row; only the fields the engine reads. -/
structure Item where
  id : Nat
  sku : String
  name : String
deriving Repr, DecidableEq

/-- Receipt row; only the fields complete_production writes or reads. -/
structure Receipt where
  id : Nat
  receipt_number : String
  source_type : String
  internal_order_number : Option String
  location_id : Nat
  received_date : Nat
  received_by : Nat
  notes : String
deriving Repr, DecidableEq

/-- ReceiptItem row created by complete_production. -/
structure ReceiptItem where
  receipt_id : Nat
  item_id : Nat
  quantity : Int
  scrap_quantity : Int
deriving Repr, DecidableEq

/-- InventoryTransaction row created by complete_production. -/
structure InventoryTransaction where
  item_id : Nat
  location_id : Nat
  transaction_type : String
  quantity : Int
  reference_type : String
  reference_id : Nat
  notes : String
  created_by : Nat
deriving Repr, DecidableEq

/-- Scrap row created by complete_production. -/
structure Scrap where
  id : Nat
  scrap_number : String
  item_id : Nat
  location_id : Nat
  quantity : Int
  reason : String
  source_type : String
  source_id : Nat
  scrapped_by : Nat
  notes : String
deriving Repr, DecidableEq

/-- The persistent store visible to the engine: every table the engine
touches, plus the auto-increment counters the database would assign. -/
structure EngineState where
  batches : List Batch
  batch_transactions : List BatchTransaction
  inventory_locations : List InventoryLocation
  production_orders : List ProductionOrder
  production_consumptions : List ProductionConsumption
  boms : List BillOfMaterials
  items : List Item
  receipts : List Receipt
  receipt_items : List ReceiptItem
  inventory_transactions : List InventoryTransaction
  scraps : List Scrap
  next_batch_id : Nat
  next_receipt_id : Nat
  next_scrap_id : Nat
deriving Repr, DecidableEq

/-- Empty database with fresh auto-increment counters. -/
def initialState : EngineState :=
  { batches := [], batch_transactions := [], inventory_locations := []
    production_orders := [], production_consumptions := [], boms := []
    items := [], receipts := [], receipt_items := []
    inventory_transactions := [], scraps := []
    next_batch_id := 1, next_receipt_id := 1, next_scrap_id := 1 }

/-- Structured version of the ValueError messages the engine raises. -/
inductive EngineError where
  | insufficientQuantity (item_id : Nat) (needed : Int) (available : Int)
  | cannotConsume (batch_id : Nat) (requested : Int) (available : Int)
  | batchNotFound (batch_id : Nat)
  | notAtSourceLocation (batch_id : Nat) (from_location_id : Nat)
  | transferExceedsAvailable (batch_id : Nat) (requested : Int) (available : Int)
  | orderNotFound (order_id : Nat)
  | invalidOrderStatus (status : String)
  | noActiveBom
  | componentItemNotFound (item_id : Nat)
  | missingComponents
  | quantityExceedsOrdered (total : Int) (ordered : Int)
  | numberParseFailure
deriving Repr, DecidableEq

/-- Result of a fallible operation: either the committed state plus the
returned value, or the raised error together with the session state at
raise time (which the caller rolls back). -/
abbrev EngineResult (α : Type) := Except (EngineError × EngineState) (EngineState × α)

instance {ε α : Type} [DecidableEq ε] [DecidableEq α] : DecidableEq (Except ε α) :=
  fun x y =>
    match x, y with
    | .error a, .error b =>
      if h : a = b then .isTrue (by rw [h]) else .isFalse (fun hc => h (by injection hc))
    | .ok a, .ok b =>
      if h : a = b then .isTrue (by rw [h]) else .isFalse (fun hc => h (by injection hc))
    | .error _, .ok _ => .isFalse (fun hc => Except.noConfusion hc)
    | .ok _, .error _ => .isFalse (fun hc => Except.noConfusion hc)

/-- Batch.query.get: primary-key lookup. -/
def findBatch (s : EngineState) (batch_id : Nat) : Option Batch :=
  s.batches.find? (fun b => b.id == batch_id)

/-- ProductionOrder.query.get: primary-key lookup. -/
def findOrder (s : EngineState) (order_id : Nat) : Option ProductionOrder :=
  s.production_orders.find? (fun o => o.id == order_id)

/-- Replace every batch row carrying the given primary key (unique in any
well-formed store) by the updated row, as flushing a mutated ORM object does. -/
def updateBatchById (bs : List Batch) (batch_id : Nat) (nb : Batch) : List Batch :=
  bs.map (fun b => if b.id == batch_id then nb else b)

/-- Replace the order row with the mutated object. -/
def updateOrderById (os : List ProductionOrder) (order_id : Nat)
    (no : ProductionOrder) : List ProductionOrder :=
  os.map (fun o => if o.id == order_id then no else o)

/-- Python truthiness of an optional integer foreign key: None and 0 are falsy. -/
def locTruthy : Option Nat → Bool
  | none => false
  | some l => l != 0

/-- Zero-padded six-digit formatting, as the %06d format specifier used by
the number generators. -/
def pad6 (n : Nat) : String :=
  let str := toString n
  String.mk (List.replicate (6 - str.length) '0') ++ str

/-- Python int(x.split(sep)[-1]): parse the text after the last dash.
Returns none where python raises ValueError. -/
def lastDashNat? (str : String) : Option Nat :=
  (str.splitOn "-").getLast?.bind String.toNat?

/-- Row with the greatest primary key, as query.order_by(id.desc()).first(). -/
def maxById {α : Type} (getId : α → Nat) (l : List α) : Option α :=
  l.foldl (fun acc x =>
    match acc with
    | none => some x
    | some a => if getId a < getId x then some x else some a) none

/-- Optional keyword arguments accepted by create_batch. -/
structure CreateBatchKwargs where
  batch_number : Option String
  supplier_batch_number : Option String
  po_id : Option Nat
  internal_order_number : Option String
  external_process_id : Option Nat
  cost_per_unit : Option ℚ
  ownership_type : Option String
  expiry_date : Option Nat
  notes : Option String
  created_by : Option Nat
  bin_location : Option String
deriving Repr, DecidableEq

/-- create_batch called with no optional keyword arguments. -/
def CreateBatchKwargs.noneSupplied : CreateBatchKwargs :=
  { batch_number := none, supplier_batch_number := none, po_id := none
    internal_order_number := none, external_process_id := none
    cost_per_unit := none, ownership_type := none, expiry_date := none
    notes := none, created_by := none, bin_location := none }

/-- Batch-number auto-generation block of batch_utils.create_batch: scan the
row with the greatest id and increment, falling back to id-based numbering
when the previous number does not parse. -/
def generateBatchNumber (s : EngineState) (kw : CreateBatchKwargs) : String :=
  match kw.batch_number with
  | some bn => bn
  | none =>
    match maxById (fun b => b.id) s.batches with
    | none => "BATCH-000001"
    | some last =>
      if last.batch_number.startsWith "BATCH-" then
        match lastDashNat? last.batch_number with
        | some n => "BATCH-" ++ pad6 (n + 1)
        | none => "BATCH-" ++ pad6 (last.id + 1)
      else
        "BATCH-" ++ pad6 (last.id + 1)

/-- batch_utils.create_batch: insert a new lot and its receipt audit record.
The python function cannot fail, so it returns the new state and row directly. -/
def create_batch (s : EngineState) (item_id : Nat) (receipt_id : Option Nat)
    (location_id : Nat) (quantity : Int) (kw : CreateBatchKwargs) (now : Nat) :
    EngineState × Batch :=
  let batch : Batch :=
    { id := s.next_batch_id
      batch_number := generateBatchNumber s kw
      item_id := item_id
      receipt_id := receipt_id
      location_id := location_id
      bin_location := kw.bin_location
      quantity_original := quantity
      quantity_available := quantity
      received_date := now
      expiry_date := kw.expiry_date
      supplier_batch_number := kw.supplier_batch_number
      po_id := kw.po_id
      internal_order_number := kw.internal_order_number
      external_process_id := kw.external_process_id
      cost_per_unit := kw.cost_per_unit.getD 0
      ownership_type := kw.ownership_type.getD "owned"
      status := "active"
      notes := kw.notes
      created_by := kw.created_by }
  let txn : BatchTransaction :=
    { batch_id := batch.id
      transaction_type := "receipt"
      quantity := quantity
      reference_type := some "receipt"
      reference_id := receipt_id
      from_location_id := none
      to_location_id := some location_id
      notes := some "Batch created from receipt"
      created_by := kw.created_by }
  ({ s with
      batches := s.batches ++ [batch]
      batch_transactions := s.batch_transactions ++ [txn]
      next_batch_id := s.next_batch_id + 1 }, batch)

/-- Stable insertion of a batch into a list ordered by received_date. -/
def insertByDate (b : Batch) : List Batch → List Batch
  | [] => [b]
  | c :: cs =>
    if b.received_date ≤ c.received_date then b :: c :: cs
    else c :: insertByDate b cs

/-- Stable sort by received_date ascending, modelling the SQL
ORDER BY received_date ASC over rows in insertion order. -/
def sortByReceivedDate : List Batch → List Batch
  | [] => []
  | b :: bs => insertByDate b (sortByReceivedDate bs)

/-- First stage of the get_available_batches_fifo query: item, positive
availability, active status. -/
def availableBase (s : EngineState) (item_id : Nat) : List Batch :=
  s.batches.filter (fun b =>
    b.item_id == item_id && decide (b.quantity_available > 0) && b.status == "active")

/-- Second stage: optional location filter (skipped for a falsy location). -/
def availableAtLocation (q : List Batch) (location_id : Option Nat) : List Batch :=
  if locTruthy location_id then
    q.filter (fun b => b.location_id == location_id.getD 0)
  else q

/-- Third stage: optional expiry filter. -/
def availableUnexpired (q : List Batch) (exclude_expired : Bool) (now : Nat) :
    List Batch :=
  if exclude_expired then
    q.filter (fun b =>
      match b.expiry_date with
      | none => true
      | some e => decide (e > now))
  else q

/-- batch_utils.get_available_batches_fifo: active rows of the item with
positive availability, optionally filtered by location and expiry, FIFO
ordered. -/
def get_available_batches_fifo (s : EngineState) (item_id : Nat)
    (location_id : Option Nat) (exclude_expired : Bool) (now : Nat) :
    List Batch :=
  sortByReceivedDate
    (availableUnexpired (availableAtLocation (availableBase s item_id) location_id)
      exclude_expired now)

/-- models.Batch.consume: reject a request above availability, otherwise
decrement and flip the status to depleted when availability reaches zero. -/
def Batch.consume (b : Batch) (quantity : Int) : Except EngineError Batch :=
  if quantity > b.quantity_available then
    .error (.cannotConsume b.id quantity b.quantity_available)
  else
    let b2 := { b with quantity_available := b.quantity_available - quantity }
    if b2.quantity_available = 0 then .ok { b2 with status := "depleted" }
    else .ok b2

/-- Entry of the consumed-batches list returned by consume_batches_fifo. -/
structure ConsumedBatchInfo where
  batch_id : Nat
  batch_number : String
  quantity : Int
  cost_per_unit : ℚ
deriving Repr, DecidableEq

/-- Optional keyword arguments accepted by consume_batches_fifo. -/
structure ConsumeKwargs where
  reference_type : Option String
  reference_id : Option Nat
  notes : Option String
  created_by : Option Nat
deriving Repr, DecidableEq

/-- consume_batches_fifo called with no optional keyword arguments. -/
def ConsumeKwargs.noneSupplied : ConsumeKwargs :=
  { reference_type := none, reference_id := none, notes := none, created_by := none }

/-- The for-loop of consume_batches_fifo: walk the FIFO-ordered snapshot,
taking min(availability, remainder) from each row until the remainder is
exhausted, recording a negative consumption audit line per row. -/
def consumeBatchesLoop (location_id : Nat) (kw : ConsumeKwargs) (s : EngineState)
    (remaining : Int) (acc : List ConsumedBatchInfo) :
    List Batch → EngineResult (List ConsumedBatchInfo)
  | [] => .ok (s, acc)
  | b :: bs =>
    if remaining ≤ 0 then .ok (s, acc)
    else
      let consume_qty := min b.quantity_available remaining
      match b.consume consume_qty with
      | .error e => .error (e, s)
      | .ok b2 =>
        let txn : BatchTransaction :=
          { batch_id := b.id
            transaction_type := "consumption"
            quantity := -consume_qty
            reference_type := kw.reference_type
            reference_id := kw.reference_id
            from_location_id := some location_id
            to_location_id := none
            notes := some (kw.notes.getD "FIFO consumption")
            created_by := kw.created_by }
        let s2 := { s with
          batches := updateBatchById s.batches b.id b2
          batch_transactions := s.batch_transactions ++ [txn] }
        consumeBatchesLoop location_id kw s2 (remaining - consume_qty)
          (acc ++ [{ batch_id := b.id, batch_number := b.batch_number
                     quantity := consume_qty, cost_per_unit := b.cost_per_unit }]) bs

/-- Total quantity_available over a list of batch rows. -/
def sumAvailable (bs : List Batch) : Int :=
  (bs.map (fun b => b.quantity_available)).sum

/-- batch_utils.consume_batches_fifo: all-or-nothing FIFO consumption. -/
def consume_batches_fifo (s : EngineState) (item_id : Nat)
    (quantity_needed : Int) (location_id : Nat) (kw : ConsumeKwargs) (now : Nat) :
    EngineResult (List ConsumedBatchInfo) :=
  let available_batches := get_available_batches_fifo s item_id (some location_id) true now
  let total_available := sumAvailable available_batches
  if total_available < quantity_needed then
    .error (.insufficientQuantity item_id quantity_needed total_available, s)
  else
    consumeBatchesLoop location_id kw s quantity_needed [] available_batches

/-- Result of calculate_fifo_cost. -/
structure FifoCost where
  total_cost : ℚ
  average_cost_per_unit : ℚ
deriving Repr, DecidableEq

/-- batch_utils.calculate_fifo_cost: total and weighted average cost of a
consumed-batches list. -/
def calculate_fifo_cost (consumed_batches : List ConsumedBatchInfo) : FifoCost :=
  if consumed_batches.isEmpty then
    { total_cost := 0, average_cost_per_unit := 0 }
  else
    let total_cost := (consumed_batches.map
      (fun b => (b.quantity : ℚ) * b.cost_per_unit)).sum
    let total_quantity := (consumed_batches.map (fun b => b.quantity)).sum
    let avg_cost :=
      if total_quantity > 0 then total_cost / (total_quantity : ℚ) else 0
    { total_cost := total_cost, average_cost_per_unit := avg_cost }

/-- Optional keyword arguments accepted by transfer_batch. -/
structure TransferKwargs where
  reference_type : Option String
  reference_id : Option Nat
  notes : Option String
  created_by : Option Nat
  to_bin_location : Option String
deriving Repr, DecidableEq

/-- transfer_batch called with no optional keyword arguments. -/
def TransferKwargs.noneSupplied : TransferKwargs :=
  { reference_type := none, reference_id := none, notes := none
    created_by := none, to_bin_location := none }

/-- batch_utils.transfer_batch: move a full lot by reassigning its location,
or split off a new lot at the destination, preserving the original
received_date, cost and source linkage.  Returns the batch at the
destination. -/
def transfer_batch (s : EngineState) (batch_id : Nat) (from_location_id : Nat)
    (to_location_id : Nat) (quantity : Int) (kw : TransferKwargs) :
    EngineResult Batch :=
  match findBatch s batch_id with
  | none => .error (.batchNotFound batch_id, s)
  | some batch =>
    if batch.location_id ≠ from_location_id then
      .error (.notAtSourceLocation batch_id from_location_id, s)
    else if batch.quantity_available < quantity then
      .error (.transferExceedsAvailable batch_id quantity batch.quantity_available, s)
    else if quantity = batch.quantity_available then
      let b2 := { batch with location_id := to_location_id }
      let txn : BatchTransaction :=
        { batch_id := batch.id
          transaction_type := "transfer"
          quantity := quantity
          reference_type := some (kw.reference_type.getD "stock_movement")
          reference_id := kw.reference_id
          from_location_id := some from_location_id
          to_location_id := some to_location_id
          notes := some (kw.notes.getD "Batch transfer")
          created_by := kw.created_by }
      .ok ({ s with
              batches := updateBatchById s.batches batch.id b2
              batch_transactions := s.batch_transactions ++ [txn] }, b2)
    else
      let b2 := { batch with quantity_available := batch.quantity_available - quantity }
      let txn_out : BatchTransaction :=
        { batch_id := batch.id
          transaction_type := "transfer_out"
          quantity := -quantity
          reference_type := some (kw.reference_type.getD "stock_movement")
          reference_id := kw.reference_id
          from_location_id := some from_location_id
          to_location_id := some to_location_id
          notes := some (kw.notes.getD "Partial batch transfer out")
          created_by := kw.created_by }
      let new_batch : Batch :=
        { id := s.next_batch_id
          batch_number := batch.batch_number ++ "-SPLIT"
          item_id := batch.item_id
          receipt_id := batch.receipt_id
          location_id := to_location_id
          bin_location := kw.to_bin_location
          quantity_original := quantity
          quantity_available := quantity
          received_date := batch.received_date
          expiry_date := batch.expiry_date
          supplier_batch_number := batch.supplier_batch_number
          po_id := batch.po_id
          internal_order_number := batch.internal_order_number
          external_process_id := batch.external_process_id
          cost_per_unit := batch.cost_per_unit
          ownership_type := batch.ownership_type
          status := "active"
          notes := some ("Split from " ++ batch.batch_number)
          created_by := kw.created_by }
      let txn_in : BatchTransaction :=
        { batch_id := new_batch.id
          transaction_type := "transfer_in"
          quantity := quantity
          reference_type := some (kw.reference_type.getD "stock_movement")
          reference_id := kw.reference_id
          from_location_id := some from_location_id
          to_location_id := some to_location_id
          notes := some (kw.notes.getD "Partial batch transfer in")
          created_by := kw.created_by }
      .ok ({ s with
              batches := updateBatchById s.batches batch.id b2 ++ [new_batch]
              batch_transactions := s.batch_transactions ++ [txn_out, txn_in]
              next_batch_id := s.next_batch_id + 1 }, new_batch)

/-- Component requirement resolved from the BOM or the manual list
(the components_to_consume entries of start_production; the item object
itself is looked up again where needed). -/
structure ResolvedComponent where
  item_id : Nat
  quantity_per_unit : ℚ
deriving Repr, DecidableEq

/-- Per-component summary entry of the start_production result (the
consumed_components dicts, with the item name and sku fields elided). -/
structure ConsumedComponentSummary where
  item_id : Nat
  quantity : Int
  batches_consumed : Nat
  total_cost : ℚ
  average_cost : ℚ
deriving Repr, DecidableEq

/-- Result of start_production. -/
structure StartProductionResult where
  consumed_components : List ConsumedComponentSummary
  total_material_cost : ℚ
deriving Repr, DecidableEq

/-- Python int() on a rational: truncation toward zero. -/
def truncInt (q : ℚ) : Int :=
  if 0 ≤ q then ⌊q⌋ else ⌈q⌉

/-- Manual-mode component resolution: each listed item must exist. -/
def resolveManualComponents (s : EngineState) :
    List ManualComponent → Except EngineError (List ResolvedComponent)
  | [] => .ok []
  | mc :: rest =>
    match s.items.find? (fun i => i.id == mc.item_id) with
    | none => .error (.componentItemNotFound mc.item_id)
    | some _ =>
      match resolveManualComponents s rest with
      | .error e => .error e
      | .ok l => .ok ({ item_id := mc.item_id, quantity_per_unit := mc.quantity } :: l)

/-- Component-list resolution of start_production: BOM mode requires an
active BOM, manual mode requires each component item to exist, and at
least one of the two sources must be present. -/
def resolveComponents (s : EngineState) (po : ProductionOrder) :
    Except EngineError (List ResolvedComponent) :=
  match po.bom_id with
  | some bom_id =>
    match s.boms.find? (fun b => b.id == bom_id) with
    | none => .error .noActiveBom
    | some bom =>
      if bom.status ≠ "active" then .error .noActiveBom
      else .ok (bom.components.map (fun bc =>
        { item_id := bc.component_item_id, quantity_per_unit := bc.quantity }))
  | none =>
    match po.manual_components with
    | some comps => resolveManualComponents s comps
    | none => .error .missingComponents

/-- Adjust the first matching (item, location) cache row by delta, leaving
the list unchanged when no row matches (filter_by(...).first() followed by
a guarded in-place update). -/
def invLocAdjustFirst : List InventoryLocation → Nat → Nat → Int →
    List InventoryLocation
  | [], _, _, _ => []
  | il :: rest, item, loc, delta =>
    if il.item_id == item && il.location_id == loc then
      { il with quantity := il.quantity + delta } :: rest
    else il :: invLocAdjustFirst rest item loc delta

/-- Whether a cache row exists for the (item, location) pair. -/
def invLocExists (ils : List InventoryLocation) (item loc : Nat) : Bool :=
  ils.any (fun il => il.item_id == item && il.location_id == loc)

/-- ProductionOrder.calculate_total_cost: consumption totals of the order
plus labor and overhead. -/
def calculate_total_cost (s : EngineState) (po : ProductionOrder) : ℚ :=
  ((s.production_consumptions.filter
      (fun c => c.production_order_id == po.id)).map
      (fun c => c.total_cost)).sum
    + po.labor_cost + po.overhead_cost

/-- The component loop of start_production: consume each requirement by
FIFO, record the consumption rows, decrement the existing cache row, and
accumulate the material cost.  Any ValueError from the FIFO consumption is
caught by the surrounding except clause, which rolls the session back to
the state at entry (the s0 argument). -/
def startProductionLoop (s0 : EngineState) (po : ProductionOrder)
    (user_id : Nat) (now : Nat) (s : EngineState) (total : ℚ)
    (acc : List ConsumedComponentSummary) :
    List ResolvedComponent → EngineResult (ℚ × List ConsumedComponentSummary)
  | [] => .ok (s, total, acc)
  | c :: cs =>
    let required_quantity := truncInt (c.quantity_per_unit * (po.quantity_ordered : ℚ))
    if required_quantity ≤ 0 then
      startProductionLoop s0 po user_id now s total acc cs
    else
      match consume_batches_fifo s c.item_id required_quantity po.location_id
          { reference_type := some "production_order"
            reference_id := some po.id
            notes := some ("Production Order " ++ po.order_number)
            created_by := some user_id } now with
      | .error (e, _) => .error (e, s0)
      | .ok (s1, consumed_batches) =>
        let s2 := { s1 with
          production_consumptions := s1.production_consumptions ++
            consumed_batches.map (fun (bi : ConsumedBatchInfo) =>
              ({ production_order_id := po.id,
                 component_item_id := c.item_id,
                 batch_id := bi.batch_id,
                 quantity_consumed := bi.quantity,
                 cost_per_unit := bi.cost_per_unit,
                 total_cost := (bi.quantity : ℚ) * bi.cost_per_unit,
                 consumed_date := now,
                 consumed_by := user_id,
                 notes := "Batch " ++ bi.batch_number ++ " consumed" } :
                  ProductionConsumption)) }
        let fifo_cost := calculate_fifo_cost consumed_batches
        let s3 := { s2 with
          inventory_locations :=
            invLocAdjustFirst s2.inventory_locations c.item_id po.location_id
              (-required_quantity) }
        startProductionLoop s0 po user_id now s3 (total + fifo_cost.total_cost)
          (acc ++ [{ item_id := c.item_id
                     quantity := required_quantity
                     batches_consumed := consumed_batches.length
                     total_cost := fifo_cost.total_cost
                     average_cost := fifo_cost.average_cost_per_unit }]) cs

/-- production_utils.start_production: resolve the component list, consume
every requirement by FIFO inside one unit of work, then move the order to
in_progress with its material cost rolled up.  Any failure rolls the whole
session back. -/
def start_production (s : EngineState) (production_order_id : Nat)
    (user_id : Nat) (now : Nat) : EngineResult StartProductionResult :=
  match findOrder s production_order_id with
  | none => .error (.orderNotFound production_order_id, s)
  | some po =>
    if po.status = "draft" ∨ po.status = "released" then
      match resolveComponents s po with
      | .error e => .error (e, s)
      | .ok components_to_consume =>
        match startProductionLoop s po user_id now s 0 [] components_to_consume with
        | .error (e, serr) => .error (e, serr)
        | .ok (s4, total_material_cost, summaries) =>
          let po2 := { po with
            status := "in_progress"
            actual_start_date := some now
            material_cost := total_material_cost }
          let po3 := { po2 with total_cost := calculate_total_cost s4 po2 }
          let s5 := { s4 with
            production_orders := updateOrderById s4.production_orders po.id po3 }
          .ok (s5, { consumed_components := summaries
                     total_material_cost := total_material_cost })
    else
      .error (.invalidOrderStatus po.status, s)

/-- Result of complete_production. -/
structure CompleteProductionResult where
  receipt_number : String
  batch_number : Option String
  cost_per_unit : ℚ
  total_cost : ℚ
deriving Repr, DecidableEq

/-- production_utils.complete_production: book the finished goods as a new
receipt and lot costed at total_cost / quantity_produced, record scrap
separately, and accumulate the produced and scrapped counters on the
order. -/
def complete_production (s : EngineState) (production_order_id : Nat)
    (quantity_produced : Int) (quantity_scrapped : Int) (user_id : Nat)
    (scrap_reason : Option String) (now : Nat) :
    EngineResult CompleteProductionResult :=
  match findOrder s production_order_id with
  | none => .error (.orderNotFound production_order_id, s)
  | some po =>
    if po.status ≠ "in_progress" then
      .error (.invalidOrderStatus po.status, s)
    else
      let total_quantity := quantity_produced + quantity_scrapped
      if total_quantity > po.quantity_ordered then
        .error (.quantityExceedsOrdered total_quantity po.quantity_ordered, s)
      else
        let receipt_number? :=
          match maxById (fun r => r.id) s.receipts with
          | none => some "RCV-000001"
          | some last =>
            (lastDashNat? last.receipt_number).map (fun n => "RCV-" ++ pad6 (n + 1))
        match receipt_number? with
        | none => .error (.numberParseFailure, s)
        | some receipt_number =>
          let receipt : Receipt :=
            { id := s.next_receipt_id
              receipt_number := receipt_number
              source_type := "production"
              internal_order_number := some po.order_number
              location_id := po.location_id
              received_date := now
              received_by := user_id
              notes := "Production completed for " ++ po.order_number }
          let s1 := { s with
            receipts := s.receipts ++ [receipt]
            next_receipt_id := s.next_receipt_id + 1 }
          let s2 := { s1 with
            receipt_items := s1.receipt_items ++
              [{ receipt_id := receipt.id
                 item_id := po.finished_item_id
                 quantity := total_quantity
                 scrap_quantity := quantity_scrapped }] }
          let cost_per_unit :=
            if quantity_produced > 0 then po.total_cost / (quantity_produced : ℚ)
            else 0
          let goodStep : EngineState × Option String :=
            if quantity_produced > 0 then
              let ils :=
                if invLocExists s2.inventory_locations po.finished_item_id po.location_id then
                  invLocAdjustFirst s2.inventory_locations po.finished_item_id
                    po.location_id quantity_produced
                else
                  s2.inventory_locations ++
                    [{ item_id := po.finished_item_id
                       location_id := po.location_id
                       quantity := quantity_produced }]
              let s3 := { s2 with
                inventory_locations := ils
                inventory_transactions := s2.inventory_transactions ++
                  [{ item_id := po.finished_item_id
                     location_id := po.location_id
                     transaction_type := "receipt"
                     quantity := quantity_produced
                     reference_type := "production_order"
                     reference_id := po.id
                     notes := "Production completed: " ++ po.order_number
                     created_by := user_id }] }
              let (s4, batch) := create_batch s3 po.finished_item_id
                (some receipt.id) po.location_id quantity_produced
                { CreateBatchKwargs.noneSupplied with
                    internal_order_number := some po.order_number
                    cost_per_unit := some cost_per_unit
                    notes := some ("Produced from " ++ po.order_number)
                    created_by := some user_id } now
              (s4, some batch.batch_number)
            else (s2, none)
          let s5 := goodStep.1
          let batch_number := goodStep.2
          let scrap_number? :=
            if quantity_scrapped > 0 then
              match maxById (fun sc => sc.id) s5.scraps with
              | none => some (some "SCRAP-000001")
              | some last =>
                (lastDashNat? last.scrap_number).map
                  (fun n => some ("SCRAP-" ++ pad6 (n + 1)))
            else some none
          match scrap_number? with
          | none => .error (.numberParseFailure, s)
          | some scrap_number =>
            let s6 :=
              match scrap_number with
              | none => s5
              | some sn =>
                { s5 with
                  scraps := s5.scraps ++
                    [({ id := s5.next_scrap_id,
                        scrap_number := sn,
                        item_id := po.finished_item_id,
                        location_id := po.location_id,
                        quantity := quantity_scrapped,
                        reason := scrap_reason.getD "Production scrap",
                        source_type := "production",
                        source_id := po.id,
                        scrapped_by := user_id,
                        notes := "Scrapped during production " ++ po.order_number } :
                      Scrap)]
                  next_scrap_id := s5.next_scrap_id + 1 }
            let po2 := { po with
              quantity_produced := po.quantity_produced + quantity_produced
              quantity_scrapped := po.quantity_scrapped + quantity_scrapped
              actual_completion_date := some now }
            let po3 :=
              if po2.quantity_produced + po2.quantity_scrapped ≥ po2.quantity_ordered
              then { po2 with status := "completed" }
              else po2
            let s7 := { s6 with
              production_orders := updateOrderById s6.production_orders po.id po3 }
            .ok (s7, { receipt_number := receipt_number
                       batch_number := batch_number
                       cost_per_unit := cost_per_unit
                       total_cost := po.total_cost })

/-! ## Observation helpers and concrete fixtures -/

/-- State component of an operation result: the committed state on success,
the uncommitted session state at raise time on failure. -/
def resultState {α : Type} : EngineResult α → EngineState
  | .ok (s, _) => s
  | .error (_, s) => s

/-- Value component of a successful operation result. -/
def resultValue {α : Type} (r : EngineResult α) : Option α :=
  r.toOption.map Prod.snd

/-- Whether the operation committed. -/
def resultOk {α : Type} : EngineResult α → Bool
  | .ok _ => true
  | .error _ => false

/-- Signed sum of every audit delta recorded for a lot. -/
def sumDeltas (ts : List BatchTransaction) (batch_id : Nat) : Int :=
  ((ts.filter (fun t => t.batch_id == batch_id)).map (fun t => t.quantity)).sum

/-- Sum of the magnitudes of the negative audit deltas recorded for a lot. -/
def negConsumed (ts : List BatchTransaction) (batch_id : Nat) : Int :=
  ((ts.filter (fun t => t.batch_id == batch_id && decide (t.quantity < 0))).map
    (fun t => -t.quantity)).sum

/-- Cache reading for a pair: the quantity of its rows (zero when absent). -/
def cacheQuantity (s : EngineState) (item loc : Nat) : Int :=
  ((s.inventory_locations.filter
      (fun il => il.item_id == item && il.location_id == loc)).map
    (fun il => il.quantity)).sum

/-- Sum of quantity_available over the active lots of an item at a location. -/
def activeLotSum (s : EngineState) (item loc : Nat) : Int :=
  ((s.batches.filter (fun b =>
      b.item_id == item && b.location_id == loc && b.status == "active")).map
    (fun b => b.quantity_available)).sum

/-- Fixture: Lot A of Scenario A (qty 100, received day 1, cost 5.00). -/
def lotA : Batch :=
  { id := 1, batch_number := "BATCH-000001", item_id := 1, receipt_id := some 1
    location_id := 1, bin_location := none, quantity_original := 100
    quantity_available := 100, received_date := 1, expiry_date := none
    supplier_batch_number := none, po_id := none, internal_order_number := none
    external_process_id := none, cost_per_unit := 5, ownership_type := "owned"
    status := "active", notes := none, created_by := none }

/-- Fixture: Lot B of Scenario A (qty 50, received day 2, cost 6.00). -/
def lotB : Batch :=
  { lotA with
    id := 2, batch_number := "BATCH-000002", quantity_original := 50,
    quantity_available := 50, received_date := 2, cost_per_unit := 6 }

/-- Fixture: ledger holding exactly lots A and B of item 1 at location 1. -/
def twoLotState : EngineState :=
  { initialState with batches := [lotA, lotB], next_batch_id := 3 }

/-- Fixture: the component lot of Scenario D: 15 units of item 2 at location 1. -/
def lotX : Batch :=
  { lotA with
    id := 5, batch_number := "BATCH-000005", item_id := 2,
    quantity_original := 15, quantity_available := 15 }

/-- Fixture: active BOM requiring 2 units of item 2 per finished unit. -/
def bomD : BillOfMaterials :=
  { id := 1, status := "active"
    components := [{ component_item_id := 2, quantity := 2 }] }

/-- Fixture: draft production order for 10 finished units at location 1. -/
def orderD : ProductionOrder :=
  { id := 1, order_number := "PROD-000001", finished_item_id := 9, bom_id := some 1
    location_id := 1, manual_components := none, quantity_ordered := 10
    quantity_produced := 0, quantity_scrapped := 0, status := "draft"
    actual_start_date := none, actual_completion_date := none
    material_cost := 0, labor_cost := 0, overhead_cost := 0, total_cost := 0 }

/-- Fixture: Scenario D store (20 units of component needed, 15 on hand). -/
def scenarioDState : EngineState :=
  { initialState with
    batches := [lotX], boms := [bomD], production_orders := [orderD],
    next_batch_id := 6 }

/-- Fixture: an in-progress order for 10 units of which 8 are already
produced. -/
def orderEight : ProductionOrder :=
  { orderD with status := "in_progress", quantity_produced := 8 }

/-- Fixture: store for the completion-precondition counterexample. -/
def completionState : EngineState :=
  { initialState with production_orders := [orderEight] }

/-- Fixture: an in-progress order whose total cost (15 = 10 material +
5 labor) differs from its material cost. -/
def orderCosted : ProductionOrder :=
  { orderD with
    status := "in_progress", material_cost := 10, labor_cost := 5,
    total_cost := 15 }

/-- Fixture: store for the finished-lot unit-cost counterexample. -/
def costedState : EngineState :=
  { initialState with production_orders := [orderCosted] }

/-! ## C1: insufficient quantity fails before any mutation -/

/-- C1.  If the available (active, positive, non-expired) lots of an item at
a location sum to strictly less than the requested quantity, FIFO
consumption fails with the insufficient-quantity error carrying the needed
and available amounts, and the session state is exactly the input state:
no lot and no audit record has been touched. -/
theorem consume_insufficient_is_error_without_mutation
    (s : EngineState) (item_id : Nat) (quantity_needed : Int)
    (location_id : Nat) (kw : ConsumeKwargs) (now : Nat)
    (h : sumAvailable (get_available_batches_fifo s item_id (some location_id) true now)
          < quantity_needed) :
    consume_batches_fifo s item_id quantity_needed location_id kw now =
      .error (.insufficientQuantity item_id quantity_needed
        (sumAvailable (get_available_batches_fifo s item_id (some location_id) true now)), s) := by
  unfold consume_batches_fifo
  rw [if_pos h]

/-- Witness for C1: Scenario B, lots of 100 and 50 cannot satisfy a demand
of 200; the error carries needed 200 and available 150 and the returned
session state is the untouched two-lot ledger. -/
theorem consume_insufficient_witness :
    consume_batches_fifo twoLotState 1 200 1 ConsumeKwargs.noneSupplied 10 =
      .error (.insufficientQuantity 1 200 150, twoLotState) := by
  have h : sumAvailable (get_available_batches_fifo twoLotState 1 (some 1) true 10) <
      (200 : Int) := by decide
  have := consume_insufficient_is_error_without_mutation twoLotState 1 200 1
    ConsumeKwargs.noneSupplied 10 h
  rw [this]
  norm_num [show sumAvailable (get_available_batches_fifo twoLotState 1 (some 1) true 10) =
    (150 : Int) from by decide]

/-! ## C2: greedy FIFO walk and Scenario A -/

theorem insertByDate_perm (b : Batch) (l : List Batch) :
    (insertByDate b l).Perm (b :: l) := by
  induction l with
  | nil => exact List.Perm.refl _
  | cons c cs ih =>
    unfold insertByDate
    by_cases h : b.received_date ≤ c.received_date
    · rw [if_pos h]
    · rw [if_neg h]
      exact (ih.cons c).trans (List.Perm.swap b c cs)

theorem sortByReceivedDate_perm (l : List Batch) :
    (sortByReceivedDate l).Perm l := by
  induction l with
  | nil => exact List.Perm.refl _
  | cons b bs ih =>
    exact (insertByDate_perm b (sortByReceivedDate bs)).trans (ih.cons b)

theorem insertByDate_pairwise (b : Batch) (l : List Batch)
    (h : l.Pairwise (fun x y => x.received_date ≤ y.received_date)) :
    (insertByDate b l).Pairwise (fun x y => x.received_date ≤ y.received_date) := by
  induction l with
  | nil => simp [insertByDate]
  | cons c cs ih =>
    rw [List.pairwise_cons] at h
    obtain ⟨h1, h2⟩ := h
    unfold insertByDate
    by_cases hbc : b.received_date ≤ c.received_date
    · rw [if_pos hbc]
      refine List.pairwise_cons.mpr ⟨?_, List.pairwise_cons.mpr ⟨h1, h2⟩⟩
      intro x hx
      rcases List.mem_cons.mp hx with hx | hx
      · subst hx; exact hbc
      · exact le_trans hbc (h1 x hx)
    · rw [if_neg hbc]
      refine List.pairwise_cons.mpr ⟨?_, ih h2⟩
      intro x hx
      rcases List.mem_cons.mp ((insertByDate_perm b cs).mem_iff.mp hx) with hx | hx
      · subst hx; exact le_of_lt (Nat.lt_of_not_le hbc)
      · exact h1 x hx

theorem sortByReceivedDate_pairwise (l : List Batch) :
    (sortByReceivedDate l).Pairwise (fun x y => x.received_date ≤ y.received_date) := by
  induction l with
  | nil => simp [sortByReceivedDate]
  | cons b bs ih => exact insertByDate_pairwise b _ ih

/-- Everything the query filters guarantee about a returned row. -/
theorem available_mem_spec (s : EngineState) (item_id : Nat)
    (location_id : Option Nat) (exclude_expired : Bool) (now : Nat) (b : Batch)
    (hb : b ∈ get_available_batches_fifo s item_id location_id exclude_expired now) :
    b ∈ s.batches ∧ b.item_id = item_id ∧ 0 < b.quantity_available ∧
      b.status = "active" := by
  have h3 := (sortByReceivedDate_perm _).mem_iff.mp hb
  have h2 : b ∈ availableAtLocation (availableBase s item_id) location_id := by
    unfold availableUnexpired at h3
    split at h3
    · exact List.mem_of_mem_filter h3
    · exact h3
  have h1 : b ∈ availableBase s item_id := by
    unfold availableAtLocation at h2
    split at h2
    · exact List.mem_of_mem_filter h2
    · exact h2
  unfold availableBase at h1
  have hmem := List.mem_of_mem_filter h1
  have hp := List.of_mem_filter h1
  simp only [Bool.and_eq_true, beq_iff_eq, decide_eq_true_eq] at hp
  exact ⟨hmem, hp.1.1, hp.1.2, hp.2⟩

theorem batch_consume_min_isOk (b : Batch) (rem : Int) :
    ∃ b2, b.consume (min b.quantity_available rem) = .ok b2 := by
  unfold Batch.consume
  rw [if_neg (not_lt.mpr (min_le_left _ _))]
  dsimp only
  split
  · exact ⟨_, rfl⟩
  · exact ⟨_, rfl⟩

theorem sumAvailable_nonneg (l : List Batch)
    (h : ∀ b ∈ l, 0 < b.quantity_available) : 0 ≤ sumAvailable l := by
  refine List.sum_nonneg ?_
  intro x hx
  obtain ⟨b, hb, rfl⟩ := List.mem_map.mp hx
  exact le_of_lt (h b hb)

theorem consumeBatchesLoop_sum (loc : Nat) (kw : ConsumeKwargs) :
    ∀ (l : List Batch) (s : EngineState) (rem : Int)
      (acc : List ConsumedBatchInfo) (s2 : EngineState)
      (out : List ConsumedBatchInfo),
    (∀ b ∈ l, 0 < b.quantity_available) →
    rem ≤ sumAvailable l →
    consumeBatchesLoop loc kw s rem acc l = .ok (s2, out) →
    (out.map (fun e => e.quantity)).sum =
      (acc.map (fun e => e.quantity)).sum + max rem 0 := by
  intro l
  induction l with
  | nil =>
    intro s rem acc s2 out _ hsum hloop
    have hrem : rem ≤ 0 := by simpa [sumAvailable] using hsum
    unfold consumeBatchesLoop at hloop
    injection hloop with h
    injection h with _ hout
    subst hout
    simp [max_eq_right hrem]
  | cons b bs ih =>
    intro s rem acc s2 out hpos hsum hloop
    unfold consumeBatchesLoop at hloop
    by_cases hrem : rem ≤ 0
    · rw [if_pos hrem] at hloop
      injection hloop with h
      injection h with _ hout
      subst hout
      simp [max_eq_right hrem]
    · rw [if_neg hrem] at hloop
      dsimp only at hloop
      obtain ⟨b2, hb2⟩ := batch_consume_min_isOk b rem
      rw [hb2] at hloop
      have hposb := hpos b (List.mem_cons_self b bs)
      have hq_le_rem : min b.quantity_available rem ≤ rem := min_le_right _ _
      have hrem' : 0 ≤ rem - min b.quantity_available rem := by omega
      have hsum' : rem - min b.quantity_available rem ≤ sumAvailable bs := by
        have hs : sumAvailable (b :: bs) = b.quantity_available + sumAvailable bs := by
          simp [sumAvailable]
        rcases le_total b.quantity_available rem with hle | hle
        · rw [min_eq_left hle]; omega
        · rw [min_eq_right hle]
          have := sumAvailable_nonneg bs (fun x hx => hpos x (List.mem_cons_of_mem b hx))
          omega
      have := ih _ _ _ _ _ (fun x hx => hpos x (List.mem_cons_of_mem b hx)) hsum' hloop
      rw [this]
      simp only [List.map_append, List.sum_append, List.map_cons, List.map_nil,
        List.sum_cons, List.sum_nil]
      rw [max_eq_left hrem', max_eq_left (le_of_lt (not_le.mp hrem))]
      ring

theorem consumeBatchesLoop_ids (loc : Nat) (kw : ConsumeKwargs) :
    ∀ (l : List Batch) (s : EngineState) (rem : Int)
      (acc : List ConsumedBatchInfo) (s2 : EngineState)
      (out : List ConsumedBatchInfo),
    consumeBatchesLoop loc kw s rem acc l = .ok (s2, out) →
    ∃ l1 l2, l = l1 ++ l2 ∧
      out.map (fun e => e.batch_id) =
        acc.map (fun e => e.batch_id) ++ l1.map (fun b => b.id) := by
  intro l
  induction l with
  | nil =>
    intro s rem acc s2 out hloop
    unfold consumeBatchesLoop at hloop
    injection hloop with h
    injection h with _ hout
    subst hout
    exact ⟨[], [], rfl, by simp⟩
  | cons b bs ih =>
    intro s rem acc s2 out hloop
    unfold consumeBatchesLoop at hloop
    by_cases hrem : rem ≤ 0
    · rw [if_pos hrem] at hloop
      injection hloop with h
      injection h with _ hout
      subst hout
      exact ⟨[], b :: bs, rfl, by simp⟩
    · rw [if_neg hrem] at hloop
      dsimp only at hloop
      obtain ⟨b2, hb2⟩ := batch_consume_min_isOk b rem
      rw [hb2] at hloop
      obtain ⟨l1, l2, hsplit, hout⟩ := ih _ _ _ _ _ hloop
      refine ⟨b :: l1, l2, by simp [hsplit], ?_⟩
      rw [hout]
      simp

/-- C2.  FIFO consumption really is the greedy walk: for every successful
consumption the available list is ascending in received_date, the plan
visits a prefix of that list in order, and the plan quantities add up to
exactly the requested amount.  On the concrete Scenario A ledger (lot A:
100 at cost 5 received day 1; lot B: 50 at cost 6 received day 2) a demand
of 120 yields the plan [(A, 100, 5), (B, 20, 6)] whose FIFO cost is 620
with weighted average 620/120. -/
theorem fifo_walk_and_scenarioA :
    (∀ (s : EngineState) (item_id : Nat) (qty : Int) (loc : Nat)
        (kw : ConsumeKwargs) (now : Nat) (s2 : EngineState)
        (plan : List ConsumedBatchInfo),
      consume_batches_fifo s item_id qty loc kw now = .ok (s2, plan) →
      (get_available_batches_fifo s item_id (some loc) true now).Pairwise
          (fun x y => x.received_date ≤ y.received_date) ∧
      (∃ tail, plan.map (fun e => e.batch_id) ++ tail =
        (get_available_batches_fifo s item_id (some loc) true now).map
          (fun b => b.id)) ∧
      (plan.map (fun e => e.quantity)).sum = max qty 0)
    ∧ resultValue (consume_batches_fifo twoLotState 1 120 1
        ConsumeKwargs.noneSupplied 10) =
      some [{ batch_id := 1, batch_number := "BATCH-000001", quantity := 100,
              cost_per_unit := 5 },
            { batch_id := 2, batch_number := "BATCH-000002", quantity := 20,
              cost_per_unit := 6 }]
    ∧ calculate_fifo_cost
        [{ batch_id := 1, batch_number := "BATCH-000001", quantity := 100,
           cost_per_unit := 5 },
         { batch_id := 2, batch_number := "BATCH-000002", quantity := 20,
           cost_per_unit := 6 }] =
      { total_cost := 620, average_cost_per_unit := 620 / 120 } := by
  refine ⟨?_, by decide, ?_⟩
  · intro s item_id qty loc kw now s2 plan hok
    unfold consume_batches_fifo at hok
    by_cases hins : sumAvailable (get_available_batches_fifo s item_id (some loc) true now)
        < qty
    · rw [if_pos hins] at hok; exact absurd hok (by simp)
    · rw [if_neg hins] at hok
      refine ⟨sortByReceivedDate_pairwise _, ?_, ?_⟩
      · obtain ⟨l1, l2, hsplit, hout⟩ := consumeBatchesLoop_ids loc kw _ _ _ _ _ _ hok
        refine ⟨l2.map (fun b => b.id), ?_⟩
        rw [hout, hsplit]
        simp
      · have := consumeBatchesLoop_sum loc kw _ _ _ _ _ _
          (fun b hb => (available_mem_spec s item_id (some loc) true now b hb).2.2.1)
          (not_lt.mp hins) hok
        simpa using this
  · simp only [calculate_fifo_cost]
    norm_num

/-- Witness for C2: the general conjunct applied to the Scenario A ledger,
showing a plan total of exactly 120 and id sequence [1, 2]. -/
theorem fifo_walk_witness :
    ∃ (s2 : EngineState) (plan : List ConsumedBatchInfo),
      consume_batches_fifo twoLotState 1 120 1 ConsumeKwargs.noneSupplied 10 =
        .ok (s2, plan) ∧ (plan.map (fun e => e.quantity)).sum = 120 := by
  match hok : consume_batches_fifo twoLotState 1 120 1 ConsumeKwargs.noneSupplied 10 with
  | .error (e, s) =>
    have hisok : resultOk (consume_batches_fifo twoLotState 1 120 1
        ConsumeKwargs.noneSupplied 10) = true := by decide
    rw [hok] at hisok
    simp [resultOk] at hisok
  | .ok (s2, plan) =>
    refine ⟨s2, plan, rfl, ?_⟩
    have := (fifo_walk_and_scenarioA.1 twoLotState 1 120 1
      ConsumeKwargs.noneSupplied 10 s2 plan hok).2.2
    simpa using this

/-! ## C3: partial transfer splits the lot, preserving FIFO seniority -/

theorem find?_update_append (bs : List Batch) (bid : Nat) (nb : Batch)
    (extra : List Batch) (hnb : nb.id = bid) (L : Batch)
    (h : bs.find? (fun b => b.id == bid) = some L) :
    (updateBatchById bs bid nb ++ extra).find? (fun b => b.id == bid) = some nb := by
  induction bs with
  | nil => simp at h
  | cons c cs ih =>
    cases hbc : (c.id == bid) with
    | true =>
      have hupd : updateBatchById (c :: cs) bid nb = nb :: updateBatchById cs bid nb := by
        simp only [updateBatchById, List.map_cons]
        rw [if_pos hbc]
      rw [hupd, List.cons_append]
      simp [List.find?_cons, hnb]
    | false =>
      have hupd : updateBatchById (c :: cs) bid nb = c :: updateBatchById cs bid nb := by
        simp only [updateBatchById, List.map_cons]
        rw [if_neg (by simp [hbc])]
      rw [hupd, List.cons_append]
      have h2 : cs.find? (fun b => b.id == bid) = some L := by
        simpa [List.find?_cons, hbc] using h
      simpa [List.find?_cons, hbc] using ih h2

theorem findBatch_id (s : EngineState) (bid : Nat) (L : Batch)
    (h : findBatch s bid = some L) : L.id = bid := by
  have := List.find?_some h
  simpa using this

/-- C3.  A partial transfer (0 < q < availability) from a lot at the stated
source location reduces the source lot by exactly q and leaves it active,
and creates a destination lot whose original and available quantities are
both q, whose received_date, cost and source linkage all equal the source
lot's, with a transfer_out audit line on the source lot and a transfer_in
audit line on the new lot. -/
theorem partial_transfer_splits_lot
    (s : EngineState) (batch_id from_loc to_loc : Nat) (q : Int)
    (kw : TransferKwargs) (L : Batch)
    (hfind : findBatch s batch_id = some L)
    (hloc : L.location_id = from_loc)
    (_hq0 : 0 < q) (hqlt : q < L.quantity_available)
    (hstatus : L.status = "active") :
    ∃ s2 nb, transfer_batch s batch_id from_loc to_loc q kw = .ok (s2, nb) ∧
      nb.id = s.next_batch_id ∧
      nb.quantity_original = q ∧
      nb.quantity_available = q ∧
      nb.received_date = L.received_date ∧
      nb.cost_per_unit = L.cost_per_unit ∧
      nb.location_id = to_loc ∧
      nb.receipt_id = L.receipt_id ∧
      nb.po_id = L.po_id ∧
      nb.internal_order_number = L.internal_order_number ∧
      nb.external_process_id = L.external_process_id ∧
      nb.supplier_batch_number = L.supplier_batch_number ∧
      nb.status = "active" ∧
      findBatch s2 batch_id =
        some { L with quantity_available := L.quantity_available - q } ∧
      ({ L with quantity_available := L.quantity_available - q }).status = "active" ∧
      (∃ tOut tIn, s2.batch_transactions = s.batch_transactions ++ [tOut, tIn] ∧
        tOut.batch_id = L.id ∧ tOut.transaction_type = "transfer_out" ∧
        tOut.quantity = -q ∧
        tIn.batch_id = nb.id ∧ tIn.transaction_type = "transfer_in" ∧
        tIn.quantity = q) := by
  unfold transfer_batch
  rw [hfind]
  dsimp only
  rw [if_neg (not_not_intro hloc)]
  rw [if_neg (not_lt.mpr (le_of_lt hqlt))]
  rw [if_neg (ne_of_lt hqlt)]
  refine ⟨_, _, rfl, rfl, rfl, rfl, rfl, rfl, rfl, rfl, rfl, rfl, rfl, rfl, rfl, ?_, ?_, ?_⟩
  · show ((updateBatchById s.batches L.id _ ++ _).find? _) = _
    have hid : L.id = batch_id := findBatch_id s batch_id L hfind
    rw [hid]
    exact find?_update_append s.batches batch_id _ _ (by simp [hid.symm]) L hfind
  · simpa using hstatus
  · exact ⟨_, _, rfl, rfl, rfl, rfl, rfl, rfl, rfl⟩

/-- Witness for C3: Scenario C, transferring 40 of the 100-unit lot A from
location 1 to location 2. -/
theorem partial_transfer_witness :
    ∃ s2 nb, transfer_batch twoLotState 1 1 2 40 TransferKwargs.noneSupplied =
        .ok (s2, nb) ∧
      nb.quantity_original = 40 ∧ nb.quantity_available = 40 ∧
      nb.received_date = lotA.received_date ∧
      findBatch s2 1 = some { lotA with quantity_available := 60 } := by
  obtain ⟨s2, nb, hok, _, h2, h3, h4, _, _, _, _, _, _, _, _, hfind, _, _⟩ :=
    partial_transfer_splits_lot twoLotState 1 1 2 40 TransferKwargs.noneSupplied
      lotA (by decide) (by decide) (by decide) (by decide) (by decide)
  exact ⟨s2, nb, hok, h2, h3, h4, by simpa using hfind⟩

/-! ## C9: transfer validation -/

/-- C9 counterexample.  transfer_batch accepts a transfer quantity of 0 and
even of -5 (the partial branch runs, since a nonpositive quantity is
neither above availability nor equal to it): the claimed invalid-transfer
failure for quantity ≤ 0 does not exist, and the negative transfer even
mutates the ledger, raising the source lot to 105 and creating a lot with
negative quantity. -/
theorem transfer_nonpositive_quantity_accepted :
    resultOk (transfer_batch twoLotState 1 1 2 0 TransferKwargs.noneSupplied) = true
    ∧ resultOk (transfer_batch twoLotState 1 1 2 (-5) TransferKwargs.noneSupplied) = true
    ∧ (resultState (transfer_batch twoLotState 1 1 2 (-5)
          TransferKwargs.noneSupplied)).batches.map
        (fun b => (b.id, b.quantity_available)) = [(1, 105), (2, 50), (3, -5)] := by
  exact ⟨by decide, by decide, by decide⟩

/-- C9 amended.  For a lot found by id, transfer_batch fails with zero
mutation when the lot is not at the stated source location or when the
requested quantity exceeds its availability; a quantity ≤ 0 is not
validated. -/
theorem transfer_invalid_is_error_without_mutation
    (s : EngineState) (batch_id from_loc to_loc : Nat) (q : Int)
    (kw : TransferKwargs) (L : Batch)
    (hfind : findBatch s batch_id = some L) :
    (L.location_id ≠ from_loc →
      transfer_batch s batch_id from_loc to_loc q kw =
        .error (.notAtSourceLocation batch_id from_loc, s))
    ∧ (L.location_id = from_loc → L.quantity_available < q →
      transfer_batch s batch_id from_loc to_loc q kw =
        .error (.transferExceedsAvailable batch_id q L.quantity_available, s)) := by
  constructor
  · intro h
    unfold transfer_batch
    rw [hfind]
    dsimp only
    rw [if_pos h]
  · intro h1 h2
    unfold transfer_batch
    rw [hfind]
    dsimp only
    rw [if_neg (not_not_intro h1), if_pos h2]

/-- Witness for C9 amended: lot B (50 units at location 1) cannot be
transferred from location 2, nor can 60 units of it be transferred. -/
theorem transfer_invalid_witness :
    transfer_batch twoLotState 2 2 1 10 TransferKwargs.noneSupplied =
      .error (.notAtSourceLocation 2 2, twoLotState)
    ∧ transfer_batch twoLotState 2 1 2 60 TransferKwargs.noneSupplied =
      .error (.transferExceedsAvailable 2 60 50, twoLotState) := by
  constructor
  · exact (transfer_invalid_is_error_without_mutation twoLotState 2 2 1 10
      TransferKwargs.noneSupplied lotB (by decide)).1 (by decide)
  · exact (transfer_invalid_is_error_without_mutation twoLotState 2 1 2 60
      TransferKwargs.noneSupplied lotB (by decide)).2 (by decide) (by decide)

/-! ## C10: Batch.consume safety -/

theorem consumeBatchesLoop_isOk (loc : Nat) (kw : ConsumeKwargs) :
    ∀ (l : List Batch) (s : EngineState) (rem : Int)
      (acc : List ConsumedBatchInfo),
    ∃ s2 out, consumeBatchesLoop loc kw s rem acc l = .ok (s2, out) := by
  intro l
  induction l with
  | nil => intro s rem acc; exact ⟨s, acc, rfl⟩
  | cons b bs ih =>
    intro s rem acc
    unfold consumeBatchesLoop
    by_cases hrem : rem ≤ 0
    · rw [if_pos hrem]; exact ⟨s, acc, rfl⟩
    · rw [if_neg hrem]
      dsimp only
      obtain ⟨b2, hb2⟩ := batch_consume_min_isOk b rem
      rw [hb2]
      exact ih _ _ _

/-- C10.  Batch.consume raises exactly when the request exceeds
availability; a successful consume decrements by exactly the request,
never leaves a negative availability, and flips the status to depleted
exactly when availability reaches zero; and because the FIFO loop only
ever requests min(availability, remainder), consume_batches_fifo can fail
only with the up-front insufficient-quantity error, raised on the
untouched input state. -/
theorem batch_consume_safety :
    (∀ (b : Batch) (q : Int),
      (∃ e, b.consume q = .error e) ↔ b.quantity_available < q)
    ∧ (∀ (b : Batch) (q : Int) (b2 : Batch), b.consume q = .ok b2 →
        b2.quantity_available = b.quantity_available - q ∧
        0 ≤ b2.quantity_available ∧
        (b2.quantity_available = 0 → b2.status = "depleted") ∧
        (b2.quantity_available ≠ 0 → b2.status = b.status))
    ∧ (∀ (s : EngineState) (item_id : Nat) (qty : Int) (loc : Nat)
        (kw : ConsumeKwargs) (now : Nat) (e : EngineError) (s2 : EngineState),
        consume_batches_fifo s item_id qty loc kw now = .error (e, s2) →
        e = .insufficientQuantity item_id qty
          (sumAvailable (get_available_batches_fifo s item_id (some loc) true now)) ∧
        s2 = s) := by
  refine ⟨?_, ?_, ?_⟩
  · intro b q
    constructor
    · rintro ⟨e, he⟩
      by_contra hq
      unfold Batch.consume at he
      rw [if_neg hq] at he
      dsimp only at he
      split at he <;> simp at he
    · intro h
      unfold Batch.consume
      rw [if_pos h]
      exact ⟨_, rfl⟩
  · intro b q b2 hok
    unfold Batch.consume at hok
    by_cases h : b.quantity_available < q
    · rw [if_pos h] at hok; simp at hok
    · rw [if_neg h] at hok
      dsimp only at hok
      split at hok
      · injection hok with hok
        subst hok
        rename_i h0
        refine ⟨rfl, ?_, fun _ => rfl, fun hne => absurd ?_ hne⟩
        · simp only at h0 ⊢
          omega
        · simpa using h0
      · injection hok with hok
        subst hok
        rename_i h0
        refine ⟨rfl, ?_, fun hz => absurd ?_ h0, fun _ => rfl⟩
        · simp only
          omega
        · simpa using hz
  · intro s item_id qty loc kw now e s2 herr
    unfold consume_batches_fifo at herr
    by_cases hins : sumAvailable (get_available_batches_fifo s item_id (some loc) true now) < qty
    · rw [if_pos hins] at herr
      injection herr with h
      injection h with he hs
      exact ⟨he.symm, hs.symm⟩
    · rw [if_neg hins] at herr
      obtain ⟨s3, out, hok⟩ := consumeBatchesLoop_isOk loc kw _ s qty []
      rw [hok] at herr
      simp at herr

/-- Witness for C10: lot B (50 available) rejects a request of 60; lot A
consumed in full is flagged depleted; the 200-unit demand against 150
available yields exactly the insufficient-quantity error amounts. -/
theorem batch_consume_safety_witness :
    (∃ e, lotB.consume 60 = .error e)
    ∧ ({ lotA with quantity_available := 0, status := "depleted" } : Batch).status =
        "depleted"
    ∧ (.insufficientQuantity 1 200 150 : EngineError) =
        .insufficientQuantity 1 200
          (sumAvailable (get_available_batches_fifo twoLotState 1 (some 1) true 10)) := by
  refine ⟨(batch_consume_safety.1 lotB 60).mpr (by decide), ?_, ?_⟩
  · exact (batch_consume_safety.2.1 lotA 100
      { lotA with quantity_available := 0, status := "depleted" } (by decide)).2.2.1
      (by decide)
  · exact (batch_consume_safety.2.2 twoLotState 1 200 1 ConsumeKwargs.noneSupplied 10
      (.insufficientQuantity 1 200 150) twoLotState (by decide)).1

/-! ## C7: completion precondition -/

/-- C7 counterexample.  An in-progress order for 10 units with 8 already
produced accepts a further completion of 5 good units (the code compares
5 + 0 only against quantity_ordered = 10, not against the remaining 2):
the completion succeeds and the order ends up with 13 of 10 units
produced. -/
theorem complete_production_overshoot_allowed :
    resultOk (complete_production completionState 1 5 0 9 none 100) = true
    ∧ (5 : Int) + 0 > orderEight.quantity_ordered - orderEight.quantity_produced
        - orderEight.quantity_scrapped
    ∧ (findOrder (resultState (complete_production completionState 1 5 0 9 none 100)) 1).map
        (fun o => (o.quantity_produced, o.quantity_scrapped, o.status)) =
      some (13, 0, "completed") := by
  exact ⟨by decide, by decide, by decide⟩

/-- C7 amended.  complete_production succeeds only if the order is
in_progress and quantityGood + quantityScrapped is at most
quantity_ordered: the already-produced and already-scrapped quantities are
not subtracted.  Either violated precondition fails on the untouched input
state. -/
theorem complete_production_precondition
    (s : EngineState) (oid : Nat) (qp qs : Int) (uid : Nat)
    (sr : Option String) (now : Nat) (po : ProductionOrder)
    (hfind : findOrder s oid = some po) :
    (po.status ≠ "in_progress" →
      complete_production s oid qp qs uid sr now =
        .error (.invalidOrderStatus po.status, s))
    ∧ (po.status = "in_progress" → qp + qs > po.quantity_ordered →
      complete_production s oid qp qs uid sr now =
        .error (.quantityExceedsOrdered (qp + qs) po.quantity_ordered, s)) := by
  constructor
  · intro h
    unfold complete_production
    rw [hfind]
    dsimp only
    rw [if_pos h]
  · intro h1 h2
    unfold complete_production
    rw [hfind]
    dsimp only
    rw [if_neg (not_not_intro h1)]
    rw [if_pos h2]

/-- Witness for C7 amended: a draft order rejects completion, and an
in-progress order for 10 rejects a single completion of 11 units. -/
theorem complete_production_precondition_witness :
    complete_production scenarioDState 1 1 0 9 none 100 =
      .error (.invalidOrderStatus "draft", scenarioDState)
    ∧ complete_production completionState 1 11 0 9 none 100 =
      .error (.quantityExceedsOrdered 11 10, completionState) := by
  constructor
  · exact (complete_production_precondition scenarioDState 1 1 0 9 none 100 orderD
      (by decide)).1 (by decide)
  · exact (complete_production_precondition completionState 1 11 0 9 none 100
      orderEight (by decide)).2 (by decide) (by decide)

/-! ## C8: finished-lot unit cost -/

/-- C8 counterexample.  Completing 5 good units of an in-progress order
with material cost 10, labor cost 5 and hence total cost 15 prices the
finished lot at total_cost / 5 = 3, not at materialCost / 5 = 2 as
claimed: the code divides order.total_cost (material + labor + overhead),
not order.material_cost. -/
theorem finished_cost_uses_total_cost :
    (resultValue (complete_production costedState 1 5 0 9 none 100)).map
        (fun r => r.cost_per_unit) =
      some (orderCosted.total_cost / ((5 : Int) : ℚ))
    ∧ (resultState (complete_production costedState 1 5 0 9 none 100)).batches.map
        (fun b => b.internal_order_number) = [some "PROD-000001"]
    ∧ orderCosted.total_cost / ((5 : Int) : ℚ) = 3
    ∧ orderCosted.material_cost / ((5 : Int) : ℚ) = 2
    ∧ (3 : ℚ) ≠ 2 := by
  refine ⟨rfl, by decide, ?_, ?_, by norm_num⟩
  · show (15 : ℚ) / ((5 : Int) : ℚ) = 3
    norm_num
  · show (10 : ℚ) / ((5 : Int) : ℚ) = 2
    norm_num

/-- C8 amended.  A successful completion with quantityGood > 0 prices the
result and the newly appended finished-good lot at order.total_cost
(material + labor + overhead) divided by quantityGood, and tags the lot
with the order number as source linkage. -/
theorem finished_lot_cost_from_total_cost
    (s : EngineState) (oid : Nat) (qp qs : Int) (uid : Nat)
    (sr : Option String) (now : Nat) (po : ProductionOrder)
    (s2 : EngineState) (r : CompleteProductionResult)
    (hfind : findOrder s oid = some po)
    (hqp : qp > 0)
    (hok : complete_production s oid qp qs uid sr now = .ok (s2, r)) :
    r.cost_per_unit = po.total_cost / (qp : ℚ) ∧
    ∃ b : Batch, s2.batches = s.batches ++ [b] ∧
      b.cost_per_unit = po.total_cost / (qp : ℚ) ∧
      b.internal_order_number = some po.order_number ∧
      r.batch_number = some b.batch_number := by
  unfold complete_production at hok
  rw [hfind] at hok
  dsimp only at hok
  split at hok
  · simp at hok
  split at hok
  · simp at hok
  split at hok
  · simp at hok
  split at hok
  · simp at hok
  next sn heq =>
    split at hok
    next =>
      simp only [if_pos hqp, create_batch] at hok
      injection hok with hok
      injection hok with hs2 hr
      subst hs2
      subst hr
      exact ⟨by dsimp only, _, rfl, by simp [if_pos hqp], rfl, rfl⟩
    next sn2 =>
      simp only [if_pos hqp, create_batch] at hok
      injection hok with hok
      injection hok with hs2 hr
      subst hs2
      subst hr
      exact ⟨by dsimp only, _, rfl, by simp [if_pos hqp], rfl, rfl⟩

/-- Witness for C8 amended: for the costed order (total cost 15), the
completion of 5 good units prices the result at 15 / 5 = 3 and appends the
lot tagged with the order number. -/
theorem finished_lot_cost_witness :
    ∃ (s2 : EngineState) (r : CompleteProductionResult),
      complete_production costedState 1 5 0 9 none 100 = .ok (s2, r) ∧
      r.cost_per_unit = orderCosted.total_cost / ((5 : Int) : ℚ) ∧
      ∃ b : Batch, s2.batches = costedState.batches ++ [b] ∧
        b.internal_order_number = some orderCosted.order_number := by
  match hok : complete_production costedState 1 5 0 9 none 100 with
  | .error (e, st) =>
    have hisok : resultOk (complete_production costedState 1 5 0 9 none 100) = true := by
      decide
    rw [hok] at hisok
    simp [resultOk] at hisok
  | .ok (s2, r) =>
    have h := finished_lot_cost_from_total_cost costedState 1 5 0 9 none 100
      orderCosted s2 r (by decide) (by decide) hok
    obtain ⟨hc, b, hb1, _, hb3, _⟩ := h
    exact ⟨s2, r, rfl, hc, b, hb1, hb3⟩

/-! ## C4: start_production rolls back atomically -/

theorem startProductionLoop_error_state (s0 : EngineState) (po : ProductionOrder)
    (uid now : Nat) :
    ∀ (comps : List ResolvedComponent) (s : EngineState) (total : ℚ)
      (acc : List ConsumedComponentSummary) (e : EngineError) (serr : EngineState),
    startProductionLoop s0 po uid now s total acc comps = .error (e, serr) →
    serr = s0 := by
  intro comps
  induction comps with
  | nil =>
    intro s total acc e serr h
    unfold startProductionLoop at h
    simp at h
  | cons c cs ih =>
    intro s total acc e serr h
    unfold startProductionLoop at h
    dsimp only at h
    split at h
    · exact ih _ _ _ _ _ h
    · split at h
      next heq =>
        injection h with h
        injection h with _ hs
        exact hs.symm
      next s1 consumed heq =>
        exact ih _ _ _ _ _ h

/-- C4.  Every failing start_production returns the caller to exactly the
input state (the rollback undoes the already-consumed earlier components),
and on the concrete Scenario D store (order of 10 units over an active BOM
needing 2 units of component 2 each, with only 15 of the 20 required units
on hand) it fails with the insufficient-quantity error carrying needed 20
and available 15, the store exactly as before: prior order status, no
production-consumption rows, untouched lots. -/
theorem start_production_rolls_back_on_error :
    (∀ (s : EngineState) (oid uid now : Nat) (e : EngineError) (s2 : EngineState),
      start_production s oid uid now = .error (e, s2) → s2 = s)
    ∧ start_production scenarioDState 1 9 100 =
        .error (.insufficientQuantity 2 20 15, scenarioDState) := by
  constructor
  · intro s oid uid now e s2 h
    unfold start_production at h
    cases hfo : findOrder s oid with
    | none =>
      rw [hfo] at h
      injection h with h
      injection h with _ hs
      exact hs.symm
    | some po =>
      rw [hfo] at h
      dsimp only at h
      split at h
      · split at h
        next heq =>
          injection h with h
          injection h with _ hs
          exact hs.symm
        next comps heq =>
          split at h
          next e2 serr heq2 =>
            injection h with h
            injection h with _ hs
            rw [← hs]
            exact startProductionLoop_error_state s po uid now comps s 0 [] e2 serr heq2
          next => simp at h
      · injection h with h
        injection h with _ hs
        exact hs.symm
  · unfold start_production
    rw [show findOrder scenarioDState 1 = some orderD from by decide]
    dsimp only
    rw [if_pos (Or.inl (show orderD.status = "draft" from rfl))]
    rw [show resolveComponents scenarioDState orderD =
      .ok [{ item_id := 2, quantity_per_unit := 2 }] from by decide]
    dsimp only
    unfold startProductionLoop
    dsimp only
    rw [show truncInt ((2 : ℚ) * ((orderD.quantity_ordered : Int) : ℚ)) = 20 from by
      norm_num [truncInt, orderD]]
    rw [if_neg (by decide : ¬(20 : Int) ≤ 0)]
    rw [show consume_batches_fifo scenarioDState 2 20 orderD.location_id
        { reference_type := some "production_order", reference_id := some orderD.id,
          notes := some ("Production Order " ++ orderD.order_number),
          created_by := some 9 } 100 =
      .error (.insufficientQuantity 2 20 15, scenarioDState) from by decide]

/-- Witness for C4: the rollback conjunct applied at Scenario D returns the
session to the exact pre-call store. -/
theorem start_production_rollback_witness :
    resultState (start_production scenarioDState 1 9 100) = scenarioDState := by
  have h2 := start_production_rolls_back_on_error.2
  have h1 := start_production_rolls_back_on_error.1 scenarioDState 1 9 100
    (.insufficientQuantity 2 20 15) scenarioDState h2
  rw [h2]
  exact h1

/-! ## C6: the engine does not maintain the quantity cache -/

/-- C6 counterexample.  A partial transfer of 40 units from location 1 to
location 2 commits while leaving the cache table empty: the cache reading
for (item 1, location 2) stays 0 although the active lots there now sum to
40, so the claimed cache update (and the claimed consistency consequence)
does not hold. -/
theorem transfer_leaves_cache_stale :
    resultOk (transfer_batch twoLotState 1 1 2 40 TransferKwargs.noneSupplied) = true
    ∧ (resultState (transfer_batch twoLotState 1 1 2 40
          TransferKwargs.noneSupplied)).inventory_locations = []
    ∧ cacheQuantity (resultState (transfer_batch twoLotState 1 1 2 40
          TransferKwargs.noneSupplied)) 1 2 = 0
    ∧ activeLotSum (resultState (transfer_batch twoLotState 1 1 2 40
          TransferKwargs.noneSupplied)) 1 2 = 40
    ∧ (0 : Int) ≠ 40 := by
  exact ⟨by decide, by decide, by decide, by decide, by decide⟩

theorem consumeBatchesLoop_invLocs (loc : Nat) (kw : ConsumeKwargs) :
    ∀ (l : List Batch) (s : EngineState) (rem : Int)
      (acc : List ConsumedBatchInfo),
    (resultState (consumeBatchesLoop loc kw s rem acc l)).inventory_locations =
      s.inventory_locations := by
  intro l
  induction l with
  | nil => intro s rem acc; rfl
  | cons b bs ih =>
    intro s rem acc
    unfold consumeBatchesLoop
    by_cases hrem : rem ≤ 0
    · rw [if_pos hrem]; rfl
    · rw [if_neg hrem]
      dsimp only
      obtain ⟨b2, hb2⟩ := batch_consume_min_isOk b rem
      rw [hb2]
      exact ih _ _ _

theorem consume_batches_fifo_invLocs (s : EngineState) (item_id : Nat)
    (qty : Int) (loc : Nat) (kw : ConsumeKwargs) (now : Nat) :
    (resultState (consume_batches_fifo s item_id qty loc kw now)).inventory_locations =
      s.inventory_locations := by
  unfold consume_batches_fifo
  dsimp only
  split
  · rfl
  · exact consumeBatchesLoop_invLocs loc kw _ s qty []

theorem invLocAdjustFirst_keys (ils : List InventoryLocation) (item loc : Nat)
    (d : Int) :
    (invLocAdjustFirst ils item loc d).map (fun il => (il.item_id, il.location_id)) =
      ils.map (fun il => (il.item_id, il.location_id)) := by
  induction ils with
  | nil => rfl
  | cons il rest ih =>
    unfold invLocAdjustFirst
    split
    · simp
    · simpa using ih

theorem startProductionLoop_ok_invLoc_keys (s0 : EngineState)
    (po : ProductionOrder) (uid now : Nat) :
    ∀ (comps : List ResolvedComponent) (s : EngineState) (total : ℚ)
      (acc : List ConsumedComponentSummary) (s2 : EngineState)
      (v : ℚ × List ConsumedComponentSummary),
    startProductionLoop s0 po uid now s total acc comps = .ok (s2, v) →
    s2.inventory_locations.map (fun il => (il.item_id, il.location_id)) =
      s.inventory_locations.map (fun il => (il.item_id, il.location_id)) := by
  intro comps
  induction comps with
  | nil =>
    intro s total acc s2 v h
    unfold startProductionLoop at h
    injection h with h
    injection h with hs _
    rw [hs]
  | cons c cs ih =>
    intro s total acc s2 v h
    unfold startProductionLoop at h
    dsimp only at h
    split at h
    · exact ih _ _ _ _ _ h
    · split at h
      next heq => simp at h
      next s1 consumed heq =>
        have h1 : s1.inventory_locations = s.inventory_locations := by
          have := consume_batches_fifo_invLocs s c.item_id
            (truncInt (c.quantity_per_unit * (po.quantity_ordered : ℚ)))
            po.location_id
            { reference_type := some "production_order"
              reference_id := some po.id
              notes := some ("Production Order " ++ po.order_number)
              created_by := some uid } now
          rw [heq] at this
          exact this
        have h2 := ih _ _ _ _ _ h
        rw [h2]
        dsimp only
        rw [invLocAdjustFirst_keys]
        rw [h1]

/-- C6 amended.  Lot creation, FIFO consumption and transfer never touch
the per-(item, location) quantity cache at all — committed or failed, the
cache rows are exactly those of the input state — and start_production
never creates a cache row (the key multiset is preserved; a missing row
for a consumed component simply stays missing).  Cache maintenance is left
to the callers, so the claimed cache-consistency consequence does not hold
for the engine operations themselves. -/
theorem engine_ops_leave_cache_untouched :
    (∀ (s : EngineState) (item_id : Nat) (rid : Option Nat) (loc : Nat)
        (q : Int) (kw : CreateBatchKwargs) (now : Nat),
      (create_batch s item_id rid loc q kw now).1.inventory_locations =
        s.inventory_locations)
    ∧ (∀ (s : EngineState) (item_id : Nat) (qty : Int) (loc : Nat)
        (kw : ConsumeKwargs) (now : Nat),
      (resultState (consume_batches_fifo s item_id qty loc kw now)).inventory_locations =
        s.inventory_locations)
    ∧ (∀ (s : EngineState) (bid f t : Nat) (q : Int) (kw : TransferKwargs),
      (resultState (transfer_batch s bid f t q kw)).inventory_locations =
        s.inventory_locations)
    ∧ (∀ (s : EngineState) (oid uid now : Nat) (s2 : EngineState)
        (r : StartProductionResult),
      start_production s oid uid now = .ok (s2, r) →
      s2.inventory_locations.map (fun il => (il.item_id, il.location_id)) =
        s.inventory_locations.map (fun il => (il.item_id, il.location_id))) := by
  refine ⟨fun s item_id rid loc q kw now => rfl, ?_, ?_, ?_⟩
  · intro s item_id qty loc kw now
    exact consume_batches_fifo_invLocs s item_id qty loc kw now
  · intro s bid f t q kw
    unfold transfer_batch
    cases hfb : findBatch s bid with
    | none => rfl
    | some batch =>
      dsimp only
      split
      · rfl
      · split
        · rfl
        · split
          · rfl
          · rfl
  · intro s oid uid now s2 r h
    unfold start_production at h
    cases hfo : findOrder s oid with
    | none => rw [hfo] at h; simp at h
    | some po =>
      rw [hfo] at h
      dsimp only at h
      split at h
      · split at h
        next heq => simp at h
        next comps heq =>
          split at h
          next e2 serr heq2 => simp at h
          next s4 tm sums heq2 =>
            injection h with h
            injection h with hs _
            rw [← hs]
            exact startProductionLoop_ok_invLoc_keys s po uid now comps s 0 [] s4
              (tm, sums) heq2
      · simp at h

/-- Witness for C6 amended: creating a lot in the empty store and the
Scenario C transfer both leave the cache table empty. -/
theorem cache_untouched_witness :
    (create_batch initialState 1 (some 1) 1 100 CreateBatchKwargs.noneSupplied
        1).1.inventory_locations = []
    ∧ (resultState (transfer_batch twoLotState 1 1 2 40
        TransferKwargs.noneSupplied)).inventory_locations = [] := by
  constructor
  · exact engine_ops_leave_cache_untouched.1 initialState 1 (some 1) 1 100
      CreateBatchKwargs.noneSupplied 1
  · exact engine_ops_leave_cache_untouched.2.2.1 twoLotState 1 1 2 40
      TransferKwargs.noneSupplied

/-! ## C5: conservation of lot quantity against the audit trail -/

/-- Structural well-formedness the database enforces: primary keys below
the auto-increment counter and unique. -/
def WellFormedIds (s : EngineState) : Prop :=
  (∀ b ∈ s.batches, b.id < s.next_batch_id) ∧
  (∀ t ∈ s.batch_transactions, t.batch_id < s.next_batch_id) ∧
  s.batches.Pairwise (fun a b => a.id ≠ b.id)

/-- Conservation: every lot's original quantity is its available quantity
plus the magnitudes of its negative audit deltas. -/
def ConservationInv (s : EngineState) : Prop :=
  ∀ b ∈ s.batches,
    b.quantity_original = b.quantity_available + negConsumed s.batch_transactions b.id

/-- States reachable from the empty store by the engine operations the
spec enumerates (lot creation, FIFO consumption, full or partial
transfer), with the spec precondition that operation quantities are
nonnegative (the quantity > 0 precondition of createLot and transfer,
relaxed to ≥ 0). -/
inductive Reachable : EngineState → Prop
  | init : Reachable initialState
  | create (s : EngineState) (item_id : Nat) (rid : Option Nat) (loc : Nat)
      (q : Int) (kw : CreateBatchKwargs) (now : Nat) (hq : 0 ≤ q)
      (hs : Reachable s) : Reachable (create_batch s item_id rid loc q kw now).1
  | consume (s : EngineState) (item_id : Nat) (qty : Int) (loc : Nat)
      (kw : ConsumeKwargs) (now : Nat) (s2 : EngineState)
      (out : List ConsumedBatchInfo) (hs : Reachable s)
      (h : consume_batches_fifo s item_id qty loc kw now = .ok (s2, out)) :
      Reachable s2
  | transfer (s : EngineState) (bid f t : Nat) (q : Int) (kw : TransferKwargs)
      (s2 : EngineState) (nb : Batch) (hq : 0 ≤ q) (hs : Reachable s)
      (h : transfer_batch s bid f t q kw = .ok (s2, nb)) : Reachable s2

theorem negConsumed_append (ts : List BatchTransaction) (t : BatchTransaction)
    (bid : Nat) :
    negConsumed (ts ++ [t]) bid =
      negConsumed ts bid +
        (if t.batch_id = bid ∧ t.quantity < 0 then -t.quantity else 0) := by
  unfold negConsumed
  rw [List.filter_append, List.map_append, List.sum_append]
  congr 1
  by_cases h : t.batch_id = bid ∧ t.quantity < 0
  · rw [if_pos h]
    simp [List.filter, h.1, h.2]
  · rw [if_neg h]
    have hp : (t.batch_id == bid && decide (t.quantity < 0)) = false := by
      by_cases h1 : t.batch_id = bid
      · by_cases h2 : t.quantity < 0
        · exact absurd ⟨h1, h2⟩ h
        · simp [h2]
      · simp [h1]
    simp [List.filter, hp]

theorem negConsumed_fresh (ts : List BatchTransaction) (n : Nat)
    (h : ∀ t ∈ ts, t.batch_id < n) : negConsumed ts n = 0 := by
  unfold negConsumed
  have hnil : ts.filter (fun t => t.batch_id == n && decide (t.quantity < 0)) = [] := by
    rw [List.filter_eq_nil_iff]
    intro t ht
    have hlt := h t ht
    simp only [Bool.and_eq_true, beq_iff_eq, decide_eq_true_eq, not_and]
    intro he
    omega
  rw [hnil]
  rfl

theorem mem_updateBatchById (bs : List Batch) (bid : Nat) (nb : Batch)
    (x : Batch) (hx : x ∈ bs) (hne : x.id ≠ bid) :
    x ∈ updateBatchById bs bid nb := by
  unfold updateBatchById
  have := List.mem_map_of_mem (fun b => if b.id == bid then nb else b) hx
  simpa [hne] using this

theorem mem_updateBatchById_inv (bs : List Batch) (bid : Nat) (nb : Batch)
    (y : Batch) (hy : y ∈ updateBatchById bs bid nb) :
    ∃ x ∈ bs, y = if x.id == bid then nb else x := by
  unfold updateBatchById at hy
  obtain ⟨x, hx, hyx⟩ := List.mem_map.mp hy
  exact ⟨x, hx, hyx.symm⟩

theorem updateBatchById_id_map (bs : List Batch) (bid : Nat) (nb : Batch)
    (hnb : nb.id = bid) :
    (updateBatchById bs bid nb).map (fun b => b.id) = bs.map (fun b => b.id) := by
  unfold updateBatchById
  rw [List.map_map]
  apply List.map_congr_left
  intro x _
  by_cases hx : x.id = bid
  · simp [hx, hnb]
  · simp [hx]

theorem updateBatchById_pairwise (bs : List Batch) (bid : Nat) (nb : Batch)
    (hnb : nb.id = bid)
    (hp : bs.Pairwise (fun a b => a.id ≠ b.id)) :
    (updateBatchById bs bid nb).Pairwise (fun a b => a.id ≠ b.id) := by
  have h1 : ((updateBatchById bs bid nb).map (fun b => b.id)).Pairwise (fun a b => a ≠ b) := by
    rw [updateBatchById_id_map bs bid nb hnb]
    exact (List.pairwise_map).mpr hp
  exact (List.pairwise_map).mp h1

theorem eq_of_mem_mem_id (L : List Batch)
    (hp : L.Pairwise (fun a b => a.id ≠ b.id)) (x y : Batch)
    (hx : x ∈ L) (hy : y ∈ L) (hid : x.id = y.id) : x = y := by
  induction L with
  | nil => simp at hx
  | cons a L2 ih =>
    rw [List.pairwise_cons] at hp
    rcases List.mem_cons.mp hx with hx1 | hx1 <;>
      rcases List.mem_cons.mp hy with hy1 | hy1
    · rw [hx1, hy1]
    · subst hx1; exact absurd hid (hp.1 y hy1)
    · subst hy1; exact absurd hid.symm (hp.1 x hx1)
    · exact ih hp.2 hx1 hy1

theorem batch_consume_ok_fields (b : Batch) (q : Int) (b2 : Batch)
    (h : b.consume q = .ok b2) :
    b2.id = b.id ∧ b2.quantity_original = b.quantity_original ∧
    b2.quantity_available = b.quantity_available - q := by
  unfold Batch.consume at h
  split at h
  · simp at h
  · dsimp only at h
    split at h <;> (injection h with h; subst h; exact ⟨rfl, rfl, rfl⟩)

theorem create_batch_preserves (s : EngineState) (item_id : Nat)
    (rid : Option Nat) (loc : Nat) (q : Int) (kw : CreateBatchKwargs)
    (now : Nat) (hq : 0 ≤ q) (hwf : WellFormedIds s)
    (hinv : ConservationInv s) :
    WellFormedIds (create_batch s item_id rid loc q kw now).1 ∧
    ConservationInv (create_batch s item_id rid loc q kw now).1 := by
  obtain ⟨hwf1, hwf2, hwf3⟩ := hwf
  constructor
  · refine ⟨?_, ?_, ?_⟩
    · intro b hb
      dsimp only [create_batch] at hb ⊢
      rcases List.mem_append.mp hb with hb | hb
      · exact Nat.lt_succ_of_lt (hwf1 b hb)
      · rw [List.mem_singleton.mp hb]
        exact Nat.lt_succ_self _
    · intro tx htx
      dsimp only [create_batch] at htx ⊢
      rcases List.mem_append.mp htx with htx | htx
      · exact Nat.lt_succ_of_lt (hwf2 tx htx)
      · rw [List.mem_singleton.mp htx]
        exact Nat.lt_succ_self _
    · dsimp only [create_batch]
      rw [List.pairwise_append]
      refine ⟨hwf3, List.pairwise_singleton _ _, ?_⟩
      intro a ha b hb
      rw [List.mem_singleton.mp hb]
      exact Nat.ne_of_lt (hwf1 a ha)
  · intro b hb
    dsimp only [create_batch] at hb ⊢
    rcases List.mem_append.mp hb with hb | hb
    · rw [negConsumed_append]
      rw [if_neg (fun hc => absurd hc.1 (Nat.ne_of_gt (hwf1 b hb)))]
      rw [add_zero]
      exact hinv b hb
    · rw [List.mem_singleton.mp hb]
      dsimp only
      rw [negConsumed_append]
      rw [negConsumed_fresh s.batch_transactions s.next_batch_id hwf2]
      rw [if_neg (fun hc => absurd hc.2 (not_lt.mpr hq))]
      simp

theorem transfer_preserves (s : EngineState) (bid f t : Nat) (q : Int)
    (kw : TransferKwargs) (s2 : EngineState) (nb : Batch) (hq : 0 ≤ q)
    (hwf : WellFormedIds s) (hinv : ConservationInv s)
    (h : transfer_batch s bid f t q kw = .ok (s2, nb)) :
    WellFormedIds s2 ∧ ConservationInv s2 := by
  obtain ⟨hwf1, hwf2, hwf3⟩ := hwf
  unfold transfer_batch at h
  cases hfb : findBatch s bid with
  | none => rw [hfb] at h; simp at h
  | some batch =>
    rw [hfb] at h
    dsimp only at h
    have hbmem : batch ∈ s.batches := List.mem_of_find?_eq_some hfb
    have hbid : batch.id = bid := by simpa using List.find?_some hfb
    split at h
    · simp at h
    split at h
    · simp at h
    split at h
    · -- full transfer: location reassigned in place, positive transfer delta
      injection h with h
      injection h with hs2 hnb
      subst hs2
      constructor
      · refine ⟨?_, ?_, ?_⟩
        · intro b hb
          dsimp only at hb ⊢
          obtain ⟨x, hx, hyx⟩ := mem_updateBatchById_inv _ _ _ b hb
          by_cases hxid : (x.id == batch.id) = true
          · rw [if_pos hxid] at hyx
            rw [hyx]
            exact hwf1 batch hbmem
          · rw [if_neg hxid] at hyx
            rw [hyx]
            exact hwf1 x hx
        · intro tx htx
          dsimp only at htx ⊢
          rcases List.mem_append.mp htx with htx | htx
          · exact hwf2 tx htx
          · rw [List.mem_singleton.mp htx]
            exact hwf1 batch hbmem
        · dsimp only
          exact updateBatchById_pairwise _ _ _ rfl hwf3
      · intro b hb
        dsimp only at hb ⊢
        rw [negConsumed_append]
        rw [if_neg (fun hc => absurd hc.2 (not_lt.mpr hq))]
        rw [add_zero]
        obtain ⟨x, hx, hyx⟩ := mem_updateBatchById_inv _ _ _ b hb
        by_cases hxid : (x.id == batch.id) = true
        · rw [if_pos hxid] at hyx
          rw [hyx]
          exact hinv batch hbmem
        · rw [if_neg hxid] at hyx
          rw [hyx]
          exact hinv x hx
    · -- partial transfer: split into a derived lot
      injection h with h
      injection h with hs2 hnb
      subst hs2
      have happ : ∀ (o i : BatchTransaction),
          s.batch_transactions ++ [o, i] = (s.batch_transactions ++ [o]) ++ [i] := by
        intro o i; simp
      constructor
      · refine ⟨?_, ?_, ?_⟩
        · intro b hb
          dsimp only at hb ⊢
          rcases List.mem_append.mp hb with hb | hb
          · obtain ⟨x, hx, hyx⟩ := mem_updateBatchById_inv _ _ _ b hb
            by_cases hxid : (x.id == batch.id) = true
            · rw [if_pos hxid] at hyx
              rw [hyx]
              exact Nat.lt_succ_of_lt (hwf1 batch hbmem)
            · rw [if_neg hxid] at hyx
              rw [hyx]
              exact Nat.lt_succ_of_lt (hwf1 x hx)
          · rw [List.mem_singleton.mp hb]
            exact Nat.lt_succ_self _
        · intro tx htx
          dsimp only at htx ⊢
          rcases List.mem_append.mp htx with htx | htx
          · exact Nat.lt_succ_of_lt (hwf2 tx htx)
          · rcases List.mem_cons.mp htx with htx | htx
            · rw [htx]
              exact Nat.lt_succ_of_lt (hwf1 batch hbmem)
            · rw [List.mem_singleton.mp htx]
              exact Nat.lt_succ_self _
        · dsimp only
          rw [List.pairwise_append]
          refine ⟨updateBatchById_pairwise _ _ _ rfl hwf3,
            List.pairwise_singleton _ _, ?_⟩
          intro a ha b hb
          rw [List.mem_singleton.mp hb]
          obtain ⟨x, hx, hyx⟩ := mem_updateBatchById_inv _ _ _ a ha
          by_cases hxid : (x.id == batch.id) = true
          · rw [if_pos hxid] at hyx
            rw [hyx]
            exact Nat.ne_of_lt (hwf1 batch hbmem)
          · rw [if_neg hxid] at hyx
            rw [hyx]
            exact Nat.ne_of_lt (hwf1 x hx)
      · intro b hb
        dsimp only at hb ⊢
        rw [happ, negConsumed_append, negConsumed_append]
        rcases List.mem_append.mp hb with hb | hb
        · obtain ⟨x, hx, hyx⟩ := mem_updateBatchById_inv _ _ _ b hb
          by_cases hxid : (x.id == batch.id) = true
          · rw [if_pos hxid] at hyx
            have hxeq : x = batch :=
              eq_of_mem_mem_id s.batches hwf3 x batch hx hbmem (by simpa using hxid)
            rw [hyx]
            dsimp only
            have hcons := hinv batch hbmem
            by_cases hq0 : 0 < q
            · rw [if_pos ⟨rfl, by omega⟩]
              rw [if_neg (fun hc =>
                absurd hc.1 (Nat.ne_of_gt (hwf1 batch hbmem)))]
              omega
            · rw [if_neg (fun hc => hq0 (by omega))]
              rw [if_neg (fun hc =>
                absurd hc.1 (Nat.ne_of_gt (hwf1 batch hbmem)))]
              omega
          · rw [if_neg hxid] at hyx
            have hxne : x.id ≠ batch.id := by simpa using hxid
            rw [hyx]
            rw [if_neg (fun hc => hxne hc.1.symm)]
            rw [if_neg (fun hc =>
              absurd hc.1 (Nat.ne_of_gt (hwf1 x hx)))]
            have := hinv x hx
            omega
        · rw [List.mem_singleton.mp hb]
          dsimp only
          rw [negConsumed_fresh s.batch_transactions s.next_batch_id hwf2]
          rw [if_neg (fun hc =>
            absurd hc.1 (Nat.ne_of_lt (hwf1 batch hbmem)))]
          rw [if_neg (fun hc => absurd hc.2 (not_lt.mpr hq))]
          simp

theorem available_pairwise (s : EngineState) (item_id : Nat)
    (location_id : Option Nat) (ex : Bool) (now : Nat)
    (hp : s.batches.Pairwise (fun a b => a.id ≠ b.id)) :
    (get_available_batches_fifo s item_id location_id ex now).Pairwise
      (fun a b => a.id ≠ b.id) := by
  have h1 : (availableBase s item_id).Pairwise (fun a b => a.id ≠ b.id) :=
    hp.sublist (List.filter_sublist _)
  have h2 : (availableAtLocation (availableBase s item_id) location_id).Pairwise
      (fun a b => a.id ≠ b.id) := by
    unfold availableAtLocation
    split
    · exact h1.sublist (List.filter_sublist _)
    · exact h1
  have h3 : (availableUnexpired
      (availableAtLocation (availableBase s item_id) location_id) ex now).Pairwise
      (fun a b => a.id ≠ b.id) := by
    unfold availableUnexpired
    split
    · exact h2.sublist (List.filter_sublist _)
    · exact h2
  unfold get_available_batches_fifo
  exact ((sortByReceivedDate_perm _).pairwise_iff
    (fun hxy => Ne.symm hxy)).mpr h3

theorem consumeBatchesLoop_preserves (loc : Nat) (kw : ConsumeKwargs) :
    ∀ (l : List Batch) (s : EngineState) (rem : Int)
      (acc : List ConsumedBatchInfo) (s2 : EngineState)
      (out : List ConsumedBatchInfo),
    (∀ b ∈ l, b ∈ s.batches) →
    l.Pairwise (fun a b => a.id ≠ b.id) →
    (∀ b ∈ l, 0 ≤ b.quantity_available) →
    WellFormedIds s → ConservationInv s →
    consumeBatchesLoop loc kw s rem acc l = .ok (s2, out) →
    WellFormedIds s2 ∧ ConservationInv s2 := by
  intro l
  induction l with
  | nil =>
    intro s rem acc s2 out _ _ _ hwf hinv hloop
    unfold consumeBatchesLoop at hloop
    injection hloop with hloop
    injection hloop with hs _
    rw [← hs]
    exact ⟨hwf, hinv⟩
  | cons b bs ih =>
    intro s rem acc s2 out hsub hpair hnn hwf hinv hloop
    obtain ⟨hwf1, hwf2, hwf3⟩ := hwf
    unfold consumeBatchesLoop at hloop
    by_cases hrem : rem ≤ 0
    · rw [if_pos hrem] at hloop
      injection hloop with hloop
      injection hloop with hs _
      rw [← hs]
      exact ⟨⟨hwf1, hwf2, hwf3⟩, hinv⟩
    · rw [if_neg hrem] at hloop
      dsimp only at hloop
      obtain ⟨b2, hb2⟩ := batch_consume_min_isOk b rem
      rw [hb2] at hloop
      obtain ⟨hb2id, hb2orig, hb2avail⟩ := batch_consume_ok_fields _ _ _ hb2
      have hbmem : b ∈ s.batches := hsub b (List.mem_cons_self b bs)
      have hbnn : 0 ≤ b.quantity_available := hnn b (List.mem_cons_self b bs)
      have hqnn : 0 ≤ min b.quantity_available rem := le_min hbnn (by omega)
      rw [List.pairwise_cons] at hpair
      refine ih _ _ _ _ _ ?_ hpair.2 ?_ ?_ ?_ hloop
      · intro x hx
        exact mem_updateBatchById s.batches b.id b2 x (hsub x (List.mem_cons_of_mem b hx))
          (fun he => hpair.1 x hx he.symm)
      · intro x hx
        exact hnn x (List.mem_cons_of_mem b hx)
      · refine ⟨?_, ?_, ?_⟩
        · intro y hy
          dsimp only at hy ⊢
          obtain ⟨x, hx, hyx⟩ := mem_updateBatchById_inv _ _ _ y hy
          by_cases hxid : (x.id == b.id) = true
          · rw [if_pos hxid] at hyx
            rw [hyx, hb2id]
            exact hwf1 b hbmem
          · rw [if_neg hxid] at hyx
            rw [hyx]
            exact hwf1 x hx
        · intro tx htx
          dsimp only at htx ⊢
          rcases List.mem_append.mp htx with htx | htx
          · exact hwf2 tx htx
          · rw [List.mem_singleton.mp htx]
            exact hwf1 b hbmem
        · dsimp only
          exact updateBatchById_pairwise _ _ _ hb2id hwf3
      · intro y hy
        dsimp only at hy ⊢
        rw [negConsumed_append]
        obtain ⟨x, hx, hyx⟩ := mem_updateBatchById_inv _ _ _ y hy
        by_cases hxid : (x.id == b.id) = true
        · rw [if_pos hxid] at hyx
          have hxeq : x = b :=
            eq_of_mem_mem_id s.batches hwf3 x b hx hbmem (by simpa using hxid)
          rw [hyx, hb2id]
          have hcons := hinv b hbmem
          by_cases hq0 : 0 < min b.quantity_available rem
          · rw [if_pos ⟨rfl, by dsimp only; omega⟩]
            dsimp only
            omega
          · rw [if_neg (fun hc => hq0 (by
              have h2 := hc.2
              dsimp only at h2
              omega))]
            omega
        · rw [if_neg hxid] at hyx
          have hxne : x.id ≠ b.id := by simpa using hxid
          rw [hyx]
          rw [if_neg (fun hc => hxne hc.1.symm)]
          rw [add_zero]
          exact hinv x hx

theorem consume_ok_preserves (s : EngineState) (item_id : Nat) (qty : Int)
    (loc : Nat) (kw : ConsumeKwargs) (now : Nat) (s2 : EngineState)
    (out : List ConsumedBatchInfo) (hwf : WellFormedIds s)
    (hinv : ConservationInv s)
    (h : consume_batches_fifo s item_id qty loc kw now = .ok (s2, out)) :
    WellFormedIds s2 ∧ ConservationInv s2 := by
  unfold consume_batches_fifo at h
  dsimp only at h
  split at h
  · simp at h
  · refine consumeBatchesLoop_preserves loc kw _ s qty [] s2 out ?_ ?_ ?_ hwf hinv h
    · intro b hb
      exact (available_mem_spec s item_id (some loc) true now b hb).1
    · exact available_pairwise s item_id (some loc) true now hwf.2.2
    · intro b hb
      exact le_of_lt (available_mem_spec s item_id (some loc) true now b hb).2.2.1

theorem reachable_wf_conservation (s : EngineState) (h : Reachable s) :
    WellFormedIds s ∧ ConservationInv s := by
  induction h with
  | init =>
    refine ⟨⟨?_, ?_, ?_⟩, ?_⟩ <;> simp [initialState, WellFormedIds, ConservationInv]
  | create s item_id rid loc q kw now hq hs ih =>
    exact create_batch_preserves s item_id rid loc q kw now hq ih.1 ih.2
  | consume s item_id qty loc kw now s2 out hs h ih =>
    exact consume_ok_preserves s item_id qty loc kw now s2 out ih.1 ih.2 h
  | transfer s bid f t q kw s2 nb hq hs h ih =>
    exact transfer_preserves s bid f t q kw s2 nb hq ih.1 ih.2 h

/-- C5 counterexample state: a lot of 100 created in the empty store, then
30 consumed from it by FIFO. -/
def c5CreatedState : EngineState :=
  (create_batch initialState 1 (some 1) 1 100
    { CreateBatchKwargs.noneSupplied with cost_per_unit := some 5 } 1).1

/-- C5 counterexample state after the consumption. -/
def c5State : EngineState :=
  resultState (consume_batches_fifo c5CreatedState 1 30 1
    ConsumeKwargs.noneSupplied 2)

/-- C5 counterexample.  After creating a lot of 100 and consuming 30 of it,
the signed sum of ALL audit deltas of the lot (receipt +100, consumption
-30) is 70, while quantity_original - quantity_available is 30: the sum of
all deltas does not equal original minus available in magnitude.  (The
conservation reading over the negative deltas alone does hold; see the
amended theorem.) -/
theorem sum_deltas_literal_counterexample :
    sumDeltas c5State.batch_transactions 1 = 70
    ∧ (findBatch c5State 1).map
        (fun b => b.quantity_original - b.quantity_available) = some 30
    ∧ (70 : Int).natAbs ≠ (30 : Int).natAbs := by
  exact ⟨by decide, by decide, by decide⟩

/-- C5 amended.  For every state reachable by the engine operations with
nonnegative operation quantities, every lot satisfies quantity_original =
quantity_available + Σ|negative transaction deltas|; receipt and
transfer-in entries are positive and consumption/transfer-out entries
negative, and the positive entries do not enter the sum. -/
theorem lot_conservation (s : EngineState) (h : Reachable s) :
    ∀ b ∈ s.batches,
      b.quantity_original =
        b.quantity_available + negConsumed s.batch_transactions b.id :=
  (reachable_wf_conservation s h).2

/-- Witness for C5 amended: the two-operation state of the counterexample
is reachable, and its lot satisfies conservation: 100 = 70 + 30. -/
theorem lot_conservation_witness :
    ∃ b, findBatch c5State 1 = some b ∧
      b.quantity_original =
        b.quantity_available + negConsumed c5State.batch_transactions b.id := by
  have hreach : Reachable c5State := by
    refine Reachable.consume c5CreatedState 1 30 1 ConsumeKwargs.noneSupplied 2
      c5State
      [{ batch_id := 1, batch_number := "BATCH-000001", quantity := 30,
         cost_per_unit := 5 }]
      (Reachable.create initialState 1 (some 1) 1 100
        { CreateBatchKwargs.noneSupplied with cost_per_unit := some 5 } 1
        (by decide) Reachable.init) ?_
    decide
  have h := lot_conservation c5State hreach
  match hfb : findBatch c5State 1 with
  | none => exact absurd hfb (by decide)
  | some b => exact ⟨b, rfl, h b (List.mem_of_find?_eq_some hfb)⟩

end Olstral
